import Mathlib

/-
  Verification development for the BioCrabs simulation core.

  The JavaScript sources (reproduction.js, util.js, index.html) are shallowly
  embedded here.  Number semantics: the genotype / reproduction subsystem is
  embedded over ℚ (exact arithmetic, keeping every definition executable);
  the physics subsystem (collision resolution and integration), which uses
  Math.sqrt, is embedded over ℝ.  Math.PI is abstracted as an explicit
  parameter `piv` in the rational embedding, since no verified property
  depends on its value.  Math.random() draws are modelled as explicit oracle
  streams (`Nat → ℚ`), one position per call site in program order.
-/

namespace BioCrabs

/-! ### JavaScript array and number primitives (rational embedding) -/

/-- Read `l[i]` on a JS numeric array.  Out-of-range reads yield `undefined`
in JS; the simulation never branches on such reads except in `getGene`
(modelled separately with an `Option` read), so the plain read defaults
to 0 here. -/
def aget (l : List ℚ) (i : Nat) : ℚ := l.getD i 0

/-- Write `l[i] = v` on a JS array: in-range writes update in place,
out-of-range writes extend the array to length `i+1` (JS holes are
modelled as 0; no embedded code reads a hole). -/
def aset (l : List ℚ) (i : Nat) (v : ℚ) : List ℚ :=
  if i < l.length then l.set i v
  else l ++ List.replicate (i - l.length) 0 ++ [v]

/-- Read `l[i]` distinguishing `undefined`, as `genotype[gene] !== undefined`
does in `Utils.getGene`. -/
def aread (l : List ℚ) (i : Nat) : Option ℚ := l[i]?

theorem length_aset (l : List ℚ) (i : Nat) (v : ℚ) :
    (aset l i v).length = max l.length (i + 1) := by
  unfold aset
  split
  · simp only [List.length_set]
    omega
  · simp only [List.length_append, List.length_replicate, List.length_cons,
      List.length_nil]
    omega

theorem aget_aset_self (l : List ℚ) (i : Nat) (v : ℚ) :
    aget (aset l i v) i = v := by
  unfold aget aset
  split
  · next h =>
    simp [List.getD_eq_getElem?_getD, List.getElem?_set_self, h]
  · next h =>
    have hlen : i = l.length + (i - l.length) := by omega
    rw [List.getD_eq_getElem?_getD, List.append_assoc, hlen,
      List.getElem?_append_right (by omega)]
    simp

theorem aget_aset_ne (l : List ℚ) (i j : Nat) (v : ℚ) (h : i ≠ j) :
    aget (aset l i v) j = aget l j := by
  unfold aget aset
  split
  · simp [List.getD_eq_getElem?_getD, List.getElem?_set_ne h]
  · next hi =>
    rw [List.getD_eq_getElem?_getD, List.getD_eq_getElem?_getD]
    rcases Nat.lt_or_ge j l.length with hj | hj
    · rw [List.append_assoc, List.getElem?_append_left hj]
    · have hj2 : l[j]? = none := by
        rw [List.getElem?_eq_none_iff]
        exact hj
      rw [hj2, List.append_assoc, List.getElem?_append_right hj]
      rcases Nat.lt_or_ge (j - l.length) (i - l.length) with hr | hr
      · rw [List.getElem?_append_left (by simpa using hr)]
        simp [List.getElem?_replicate, hr]
      · have : i - l.length < j - l.length := by omega
        rw [List.getElem?_append_right (by simpa using hr)]
        simp only [List.length_replicate]
        have : j - l.length - (i - l.length) ≥ 1 := by omega
        rw [List.getElem?_cons, if_neg (by omega)]
        simp

/-- Math.max(lo, Math.min(hi, x)), the `clamp` of util.js. -/
def jsClamp (x lo hi : ℚ) : ℚ := max lo (min hi x)

/-- Math.round: JS rounds half toward positive infinity. -/
def jsRound (x : ℚ) : ℚ := ((⌊x + 1/2⌋ : ℤ) : ℚ)

/-- Math.floor on a rational. -/
def jsFloor (x : ℚ) : ℚ := ((⌊x⌋ : ℤ) : ℚ)

/-- The `rand(min, max)` of util.js driven by a uniform draw `u`:
`Math.random() * (max - min) + min`. -/
def jsRand (u a b : ℚ) : ℚ := u * (b - a) + a

theorem jsClamp_le (x lo hi : ℚ) (h : lo ≤ hi) : jsClamp x lo hi ≤ hi := by
  unfold jsClamp
  simp only [max_le_iff]
  exact ⟨h, min_le_left _ _⟩

theorem le_jsClamp (x lo hi : ℚ) : lo ≤ jsClamp x lo hi := le_max_left _ _

/-- Helper form of the write lemmas: one conditional equation, so simp can
reduce literal gene indices with `reduceIte`. -/
theorem aget_aset_ite (l : List ℚ) (i j : Nat) (v : ℚ) :
    aget (aset l i v) j = if i = j then v else aget l j := by
  by_cases h : i = j
  · subst h
    simp [aget_aset_self]
  · simp [h, aget_aset_ne l i j v h]

/-- Writing back the value already stored is a no-op (in-range). -/
theorem aset_self (l : List ℚ) (i : Nat) (h : i < l.length) :
    aset l i (aget l i) = l := by
  unfold aset aget
  rw [if_pos h]
  apply List.ext_getElem
  · simp
  · intro n h1 h2
    rw [List.getElem_set]
    split
    · next he =>
      subst he
      rw [List.getD_eq_getElem?_getD, List.getElem?_eq_getElem h]
      rfl
    · rfl

/-- The statement `g[i] = clamp(g[i], lo, hi)` of the source, as one
combinator so the embedded clamp chains stay linear in size. -/
def aclamp (l : List ℚ) (i : Nat) (lo hi : ℚ) : List ℚ :=
  aset l i (jsClamp (aget l i) lo hi)

/-- The statement `g[i] = Math.max(g[i], lo)` of the source. -/
def afloor (l : List ℚ) (i : Nat) (lo : ℚ) : List ℚ :=
  aset l i (max (aget l i) lo)

theorem aget_aclamp (l : List ℚ) (i : Nat) (lo hi : ℚ) (j : Nat) :
    aget (aclamp l i lo hi) j
      = if i = j then jsClamp (aget l i) lo hi else aget l j := by
  unfold aclamp
  rw [aget_aset_ite]

theorem aget_afloor (l : List ℚ) (i : Nat) (lo : ℚ) (j : Nat) :
    aget (afloor l i lo) j
      = if i = j then max (aget l i) lo else aget l j := by
  unfold afloor
  rw [aget_aset_ite]

theorem length_aclamp (l : List ℚ) (i : Nat) (lo hi : ℚ) :
    (aclamp l i lo hi).length = max l.length (i + 1) := length_aset ..

theorem length_afloor (l : List ℚ) (i : Nat) (lo : ℚ) :
    (afloor l i lo).length = max l.length (i + 1) := length_aset ..

/-! ### Genetic operators (reproduction.js)

Gene indices are those of the `GENE` map in index.html with
`LIMB_COUNT = 8`: RADIUS 0, ELONGATION 1, ORIENT 2, limb blocks at
`3 + i*5`, FREQ `3 + LC*5`, AMP `4 + LC*5`, attach fractions at `45 + i`,
SIDES 53, BODY_SYM 54, MOVE_SYM 55, COLOR_R/G/B 56/57/58 (index 59 is the
removed legacy energy gene), DRAG_MOD 60, ROT_DRAG_MOD 61, ELASTICITY 62,
TORQUE_EFF 63, POWER_RATIO 64. -/

/-- The `crossover` of reproduction.js: per index an independent coin
`Math.random() < 0.5` picks the gene from `a` or from `b`; the three color
genes are then re-chosen by the same rule with three further draws. -/
def crossoverE (u : Nat → ℚ) (a b : List ℚ) : List ℚ :=
  let child := (List.range a.length).map fun i =>
    if u i < 1/2 then aget a i else aget b i
  let n := a.length
  let c1 := aset child 56 (if u n < 1/2 then aget a 56 else aget b 56)
  let c2 := aset c1 57 (if u (n+1) < 1/2 then aget a 57 else aget b 57)
  aset c2 58 (if u (n+2) < 1/2 then aget a 58 else aget b 58)

/-- The `createRandomGenotype` of reproduction.js.  `piv` stands for
Math.PI and `u` for the stream of Math.random() draws in call order. -/
def createRandomGenotypeE (piv : ℚ) (u : Nat → ℚ) (LC : Nat) : List ℚ :=
  let g0 : List ℚ := List.replicate (3 + LC * 5 + 2 + LC + 1 + 2 + 3 + 1 + 5) 0
  let g1 := aset g0 0 (jsRand (u 0) 15 30)
  let g2 := aset g1 1 (jsRand (u 1) (7/10) (13/10))
  let g3 := aset g2 2 (jsRand (u 2) 0 (2 * piv))
  let g4 := (List.range LC).foldl (fun g i =>
    let base := 3 + i * 5
    let g := aset g base (jsRand (u (3 + 5*i)) 0 (2 * piv))
    let g := aset g (base + 1) (jsRand (u (4 + 5*i)) 10 40)
    let g := aset g (base + 2) (jsRand (u (5 + 5*i)) (1/10) (7/10))
    let g := aset g (base + 3) (jsRand (u (6 + 5*i)) (1/2) (9/10))
    aset g (base + 4) (jsRand (u (7 + 5*i)) 0 (2 * piv))) g3
  let g5 := aset g4 (3 + LC * 5) (jsRand (u (3 + 5*LC)) 1 3)
  let g6 := aset g5 (4 + LC * 5) (jsRand (u (4 + 5*LC)) (1/5) 1)
  let g7 := (List.range LC).foldl (fun g i => aset g (45 + i) (u (5 + 5*LC + i))) g6
  let g8 := aset g7 53 (jsFloor (jsRand (u (5 + 6*LC)) 3 9))
  let g9 := aset g8 54 (jsRand (u (6 + 6*LC)) 0 (2/5))
  let g10 := aset g9 55 0
  let g11 := aset g10 56 (jsRand (u (7 + 6*LC)) 0 255)
  let g12 := aset g11 57 (jsRand (u (8 + 6*LC)) 0 255)
  let g13 := aset g12 58 (jsRand (u (9 + 6*LC)) 0 255)
  let g14 := aset g13 60 (jsRand (u (10 + 6*LC)) (1/2) (3/2))
  let g15 := aset g14 61 (jsRand (u (11 + 6*LC)) (7/10) (13/10))
  let g16 := aset g15 62 (jsRand (u (12 + 6*LC)) (4/5) (6/5))
  let g17 := aset g16 63 (jsRand (u (13 + 6*LC)) (4/5) (6/5))
  aset g17 64 (jsRand (u (14 + 6*LC)) (4/5) (3/2))

/-- One iteration of the mutation loop of `mutate` (reproduction.js):
state is (next random-draw index, genotype).  A draw below the mutation
rate triggers a perturbation, additive `rand(-50,50)` on the color genes
and multiplicative `1 + rand(-0.2,0.2)` elsewhere. -/
def mutStep (u : Nat → ℚ) (rate : ℚ) (s : Nat × List ℚ) (i : Nat) :
    Nat × List ℚ :=
  let k := s.1
  let g := s.2
  if u k < rate then
    if i = 56 ∨ i = 57 ∨ i = 58 then
      (k + 2, aset g i (aget g i + jsRand (u (k+1)) (-50) 50))
    else
      (k + 2, aset g i (aget g i * (1 + jsRand (u (k+1)) (-(1/5)) (1/5))))
  else (k + 1, g)

/-- The per-limb floor/clamp block at the end of `mutate`
(reproduction.js): base-length floored at 1, branch-angle clamped to
[0.05,1], length-ratio clamped to [0.1,0.95]. -/
def mutLimbStep (g : List ℚ) (i : Nat) : List ℚ :=
  aclamp (aclamp (afloor g (3 + i * 5 + 1) 1) (3 + i * 5 + 2) (1/20) 1)
    (3 + i * 5 + 3) (1/10) (19/20)

/-- The post-perturbation clamp block of `mutate` (reproduction.js),
factored out of `mutateE` for proof modularity; `g1` is the genotype after
the perturbation loop. -/
def mutClamps (LC : Nat) (g1 : List ℚ) : List ℚ :=
  let g2 := aset g1 53 (jsClamp (jsRound (aget g1 53)) 3 8)
  let g3 := aclamp g2 54 0 1
  let g4 := aclamp g3 55 0 1
  let g5 := aclamp g4 56 0 255
  let g6 := aclamp g5 57 0 255
  let g7 := aclamp g6 58 0 255
  let g8 := aclamp g7 60 (1/2) (3/2)
  let g9 := aclamp g8 61 (7/10) (13/10)
  let g10 := aclamp g9 62 (4/5) (6/5)
  let g11 := aclamp g10 63 (4/5) (6/5)
  let g12 := aclamp g11 64 (4/5) (3/2)
  let g13 := afloor g12 (3 + LC * 5) 1
  let g14 := afloor g13 (4 + LC * 5) (1/2)
  (List.range LC).foldl mutLimbStep g14

/-- The `mutate` of reproduction.js: the perturbation loop followed by the
fixed block of clamps and floors. -/
def mutateE (LC : Nat) (u : Nat → ℚ) (rate : ℚ) (g : List ℚ) : List ℚ :=
  mutClamps LC ((List.range g.length).foldl (mutStep u rate) (0, g)).2

/-- One iteration of the `applyBodySymmetry` loop (reproduction.js): limb
`i + half` is blended toward the mirror of limb `i` (base angle negated),
then the matching attach fraction is blended toward `1 - value`.  The
source reads the four left and four right limb values before the limb
writes, and reads the attach fractions after them. -/
def bodySymStep (sf : ℚ) (half : Nat) (g : List ℚ) (i : Nat) : List ℚ :=
  let L := 3 + i * 5
  let R := 3 + (i + half) * 5
  let g1 := aset g R (sf * (-(aget g L)) + (1 - sf) * aget g R)
  let g2 := aset g1 (R + 1) (sf * aget g (L + 1) + (1 - sf) * aget g (R + 1))
  let g3 := aset g2 (R + 2) (sf * aget g (L + 2) + (1 - sf) * aget g (R + 2))
  let g4 := aset g3 (R + 3) (sf * aget g (L + 3) + (1 - sf) * aget g (R + 3))
  aset g4 (45 + (i + half))
    (sf * (1 - aget g4 (45 + i)) + (1 - sf) * aget g4 (45 + (i + half)))

/-- The `applyBodySymmetry` of reproduction.js: with blend weight `sf` from
the BODY_SYM gene (skipping everything when it is not positive), each
right-half limb is blended toward the mirror image of its left partner. -/
def applyBodySymmetryE (LC : Nat) (g : List ℚ) : List ℚ :=
  let sf := jsClamp (aget g 54) 0 1
  if sf ≤ 0 then g
  else (List.range (LC / 2)).foldl (bodySymStep sf (LC / 2)) g

/-- One iteration of the `applyMovementSymmetry` loop (reproduction.js):
only the phase gene of limb `i + half` is blended. -/
def moveSymStep (msf : ℚ) (half : Nat) (g : List ℚ) (i : Nat) : List ℚ :=
  aset g (3 + (i + half) * 5 + 4)
    (msf * aget g (3 + i * 5 + 4) + (1 - msf) * aget g (3 + (i + half) * 5 + 4))

/-- The `applyMovementSymmetry` of reproduction.js: the same blend but only
on the limb phase genes, weighted by the MOVE_SYM gene. -/
def applyMovementSymmetryE (LC : Nat) (g : List ℚ) : List ℚ :=
  let msf := jsClamp (aget g 55) 0 1
  if msf ≤ 0 then g
  else (List.range (LC / 2)).foldl (moveSymStep msf (LC / 2)) g

/-- The `Utils.getGene` of util.js:
`genotype[gene] !== undefined ? genotype[gene] : fallback` (the fallback
argument defaults to 1.0 at call sites that omit it). -/
def getGeneE (g : List ℚ) (i : Nat) (fb : ℚ) : ℚ := (aread g i).getD fb

/-! ### Reproduction (reproduction.js, triggerReproduction) -/

/-- A crab as reproduction.js sees it (rational embedding).  The JS cache
fields `_fx, _fy, _torque, _inertia, _currentThrust` are named without the
underscore. -/
structure RCrab where
  genotype : List ℚ
  x : ℚ
  y : ℚ
  vx : ℚ
  vy : ℚ
  orientation : ℚ
  omega : ℚ
  selected : Bool
  energy : ℚ
  markedForCulling : Bool
  fx : ℚ
  fy : ℚ
  torque : ℚ
  inertia : ℚ
  currentThrust : ℚ
  deriving Repr

/-- The random draws consumed by one `triggerReproduction` call:
the crossover stream, the mutation stream, the two `randFn(-15,15)`
position-jitter draws and the orientation draw, all uniform in [0,1). -/
structure ReproRand where
  cross : Nat → ℚ
  mutStream : Nat → ℚ
  jx : ℚ
  jy : ℚ
  orient : ℚ

/-- The `triggerReproduction` of reproduction.js on the closed-system
energy model, `CONFIG.MAX_ENERGY = 100`.  The `fail` flag models the
try/catch: `true` is the path where offspring construction throws after
the energy deduction, `false` the normal path.  Returns
(parentA after, parentB after, offspring or none); the source returns the
offspring together with an always-empty removal set. -/
def triggerReproductionE (LC : Nat) (piv rate W H : ℚ) (rr : ReproRand)
    (fail : Bool) (pA pB : RCrab) : RCrab × RCrab × Option RCrab :=
  let childMaxEnergy : ℚ := 100
  let intendedCostPerParent := childMaxEnergy / 2
  let contribA := max 0 (min pA.energy intendedCostPerParent)
  let contribB := max 0 (min pB.energy intendedCostPerParent)
  let totalEnergyFromParents := contribA + contribB
  let finalChildEnergy := min totalEnergyFromParents childMaxEnergy
  let pA1 := { pA with energy := pA.energy - contribA }
  let pB1 := { pB with energy := pB.energy - contribB }
  if fail then
    ({ pA1 with energy := pA1.energy + contribA },
     { pB1 with energy := pB1.energy + contribB }, none)
  else
    let childGeno0 := crossoverE rr.cross pA.genotype pB.genotype
    let childGeno1 := mutateE LC rr.mutStream rate childGeno0
    let childGeno2 := applyBodySymmetryE LC childGeno1
    let childGeno := applyMovementSymmetryE LC childGeno2
    let childX := jsClamp ((pA.x + pB.x) / 2 + jsRand rr.jx (-15) 15) 0 W
    let childY := jsClamp ((pA.y + pB.y) / 2 + jsRand rr.jy (-15) 15) 0 H
    (pA1, pB1, some {
      genotype := childGeno
      x := childX
      y := childY
      vx := 0
      vy := 0
      orientation := rr.orient * 2 * piv
      omega := 0
      selected := false
      energy := finalChildEnergy
      markedForCulling := false
      fx := 0
      fy := 0
      torque := 0
      inertia := 1
      currentThrust := 0 })

/-! ### Claims C1 and C4, reproduction energy accounting -/

/-- C1: for parents with nonnegative energies `Ea`, `Eb` and
`MAX_ENERGY = 100`, `triggerReproduction` (normal path) produces an
offspring whose initial energy is exactly `min(Ea,50) + min(Eb,50)`
(which never exceeds the `MAX_ENERGY` cap), and leaves the parents at
exactly `Ea - min(Ea,50)` and `Eb - min(Eb,50)`, both still
nonnegative. -/
theorem reproduction_closed_energy_split (LC : Nat) (piv rate W H : ℚ)
    (rr : ReproRand) (pA pB : RCrab)
    (hA : 0 ≤ pA.energy) (hB : 0 ≤ pB.energy) :
    ∃ child : RCrab,
      (triggerReproductionE LC piv rate W H rr false pA pB).2.2 = some child ∧
      child.energy = min pA.energy 50 + min pB.energy 50 ∧
      child.energy ≤ 100 ∧
      (triggerReproductionE LC piv rate W H rr false pA pB).1.energy
        = pA.energy - min pA.energy 50 ∧
      (triggerReproductionE LC piv rate W H rr false pA pB).2.1.energy
        = pB.energy - min pB.energy 50 ∧
      0 ≤ (triggerReproductionE LC piv rate W H rr false pA pB).1.energy ∧
      0 ≤ (triggerReproductionE LC piv rate W H rr false pA pB).2.1.energy := by
  have hminA : max 0 (min pA.energy (100 / 2 : ℚ)) = min pA.energy 50 := by
    rw [max_eq_right]
    · norm_num
    · positivity
  have hminB : max 0 (min pB.energy (100 / 2 : ℚ)) = min pB.energy 50 := by
    rw [max_eq_right]
    · norm_num
    · positivity
  refine ⟨_, rfl, ?_, ?_, ?_, ?_, ?_, ?_⟩
  · show min (max 0 (min pA.energy (100/2)) + max 0 (min pB.energy (100/2)))
        (100 : ℚ) = _
    rw [hminA, hminB, min_eq_left]
    have h1 : min pA.energy 50 ≤ (50 : ℚ) := min_le_right _ _
    have h2 : min pB.energy 50 ≤ (50 : ℚ) := min_le_right _ _
    linarith
  · show min (max 0 (min pA.energy (100/2)) + max 0 (min pB.energy (100/2)))
        (100 : ℚ) ≤ 100
    exact min_le_right _ _
  · show pA.energy - max 0 (min pA.energy (100/2)) = _
    rw [hminA]
  · show pB.energy - max 0 (min pB.energy (100/2)) = _
    rw [hminB]
  · show 0 ≤ pA.energy - max 0 (min pA.energy (100/2))
    rw [hminA]
    have := min_le_left pA.energy (50 : ℚ)
    linarith
  · show 0 ≤ pB.energy - max 0 (min pB.energy (100/2))
    rw [hminB]
    have := min_le_left pB.energy (50 : ℚ)
    linarith

/-- Sample crab used by the witnesses below. -/
def sampleCrab (e : ℚ) : RCrab :=
  { genotype := List.replicate 65 1
    x := 0, y := 0, vx := 0, vy := 0, orientation := 0, omega := 0
    selected := false, energy := e, markedForCulling := false
    fx := 0, fy := 0, torque := 0, inertia := 1, currentThrust := 0 }

/-- Sample random bundle used by the witnesses below. -/
def sampleRand : ReproRand :=
  { cross := fun _ => 0, mutStream := fun _ => 1, jx := 0, jy := 0, orient := 0 }

/-- Witness for C1 at parents with energies 60 and 30: the offspring gets
80 = min(60,50) + min(30,50) and the parents keep 10 and 0. -/
theorem reproduction_closed_energy_split_witness :
    0 ≤ (sampleCrab 60).energy ∧ 0 ≤ (sampleCrab 30).energy ∧
    ∃ child : RCrab,
      (triggerReproductionE 8 3 0 100 100 sampleRand false
        (sampleCrab 60) (sampleCrab 30)).2.2 = some child ∧
      child.energy = min (sampleCrab 60).energy 50
          + min (sampleCrab 30).energy 50 ∧
      child.energy ≤ 100 ∧
      (triggerReproductionE 8 3 0 100 100 sampleRand false
        (sampleCrab 60) (sampleCrab 30)).1.energy
        = (sampleCrab 60).energy - min (sampleCrab 60).energy 50 ∧
      (triggerReproductionE 8 3 0 100 100 sampleRand false
        (sampleCrab 60) (sampleCrab 30)).2.1.energy
        = (sampleCrab 30).energy - min (sampleCrab 30).energy 50 ∧
      0 ≤ (triggerReproductionE 8 3 0 100 100 sampleRand false
        (sampleCrab 60) (sampleCrab 30)).1.energy ∧
      0 ≤ (triggerReproductionE 8 3 0 100 100 sampleRand false
        (sampleCrab 60) (sampleCrab 30)).2.1.energy :=
  ⟨by norm_num [sampleCrab], by norm_num [sampleCrab],
    reproduction_closed_energy_split 8 3 0 100 100 sampleRand
      (sampleCrab 60) (sampleCrab 30)
      (by norm_num [sampleCrab]) (by norm_num [sampleCrab])⟩

/-- C4: on the failure path (offspring construction throws after the
deductions), `triggerReproduction` restores both parents' energies exactly
and yields no offspring. -/
theorem reproduction_rollback_on_failure (LC : Nat) (piv rate W H : ℚ)
    (rr : ReproRand) (pA pB : RCrab) :
    (triggerReproductionE LC piv rate W H rr true pA pB).1.energy
      = pA.energy ∧
    (triggerReproductionE LC piv rate W H rr true pA pB).2.1.energy
      = pB.energy ∧
    (triggerReproductionE LC piv rate W H rr true pA pB).2.2 = none := by
  refine ⟨?_, ?_, rfl⟩
  · show pA.energy - _ + _ = pA.energy
    ring
  · show pB.energy - _ + _ = pB.energy
    ring

/-! ### Claim C10, getGene fallback behaviour -/

/-- C10: `getGene` returns the stored gene when the slot is defined and
the fallback for any out-of-range index; it is total (never throws). -/
theorem getGene_fallback (g : List ℚ) (i : Nat) (fb : ℚ) :
    (∀ v, aread g i = some v → getGeneE g i fb = v) ∧
    (g.length ≤ i → getGeneE g i fb = fb) := by
  constructor
  · intro v hv
    simp [getGeneE, hv]
  · intro h
    have : aread g i = none := by
      simp [aread, List.getElem?_eq_none_iff, h]
    simp [getGeneE, this]

/-- Witness for C10: a three-gene genotype read in range returns the gene
value, and read at index 7 (out of range) returns the fallback 1. -/
theorem getGene_fallback_witness :
    (aread [(5 : ℚ), 6, 7] 1 = some 6 → getGeneE [(5 : ℚ), 6, 7] 1 1 = 6) ∧
    ([(5 : ℚ), 6, 7].length ≤ 7 → getGeneE [(5 : ℚ), 6, 7] 7 1 = 1) ∧
    getGeneE [(5 : ℚ), 6, 7] 1 1 = 6 ∧ getGeneE [(5 : ℚ), 6, 7] 7 1 = 1 :=
  ⟨(getGene_fallback [(5 : ℚ), 6, 7] 1 1).1 6,
   (getGene_fallback [(5 : ℚ), 6, 7] 7 1).2,
   (getGene_fallback [(5 : ℚ), 6, 7] 1 1).1 6 (by decide),
   (getGene_fallback [(5 : ℚ), 6, 7] 7 1).2 (by decide)⟩

/-! ### Claim C3, genotype length -/

/-- Helper: an in-range write keeps the array length. -/
theorem length_aset_of_lt (l : List ℚ) (i : Nat) (v : ℚ) (h : i < l.length) :
    (aset l i v).length = l.length := by
  rw [length_aset]
  omega

/-- C3 (amended): at the shipped configuration `LIMB_COUNT = 8` the
genotype allocated by `createRandomGenotype` has length
`3 + LIMB_COUNT*5 + 2 + LIMB_COUNT + 1 + 2 + 3 + 1 + 5 = 65`: the
initializer reserves one slot more than the spec formula counts (the
removed legacy energy gene at index 59). -/
theorem createRandomGenotype_length (piv : ℚ) (u : Nat → ℚ) :
    (createRandomGenotypeE piv u 8).length
      = 3 + 8 * 5 + 2 + 8 + 1 + 2 + 3 + 1 + 5 := by
  have h8 : List.range 8 = [0, 1, 2, 3, 4, 5, 6, 7] := rfl
  simp only [createRandomGenotypeE, h8, List.foldl_cons, List.foldl_nil,
    length_aset, List.length_replicate]
  omega

/-- Counterexample for C3 as stated: at the shipped configuration the
length is not `3 + LIMB_COUNT*5 + 2 + LIMB_COUNT + 1 + 2 + 3 + 5 = 64`. -/
theorem createRandomGenotype_length_ne_spec_formula :
    (createRandomGenotypeE 0 (fun _ => 0) 8).length
      ≠ 3 + 8 * 5 + 2 + 8 + 1 + 2 + 3 + 5 := by
  have h8 : List.range 8 = [0, 1, 2, 3, 4, 5, 6, 7] := rfl
  simp only [createRandomGenotypeE, h8, List.foldl_cons, List.foldl_nil,
    length_aset, List.length_replicate]
  omega

/-! ### Claim C6, crossover closure -/

/-- Helper: reading the mapped range list evaluates the map. -/
theorem aget_map_range (f : Nat → ℚ) (n i : Nat) (h : i < n) :
    aget ((List.range n).map f) i = f i := by
  unfold aget
  rw [List.getD_eq_getElem?_getD, List.getElem?_map, List.getElem?_range h]
  rfl

/-- C6: for parents of equal (genotype-sized) length, every gene of the
crossover child comes from one of the two parents (the color channels are
re-chosen by the same per-channel rule), and the child has the parents'
length.  The source builds a fresh child array and only reads `a` and `b`,
so the parents are unmodified (the embedding is pure). -/
theorem crossover_closure (u : Nat → ℚ) (a b : List ℚ)
    (hab : a.length = b.length) (hlen : 59 ≤ a.length) :
    (crossoverE u a b).length = a.length ∧
    ∀ i, i < a.length →
      aget (crossoverE u a b) i = aget a i ∨
      aget (crossoverE u a b) i = aget b i := by
  constructor
  · show (aset (aset (aset _ 56 _) 57 _) 58 _).length = _
    rw [length_aset, length_aset, length_aset]
    simp only [List.length_map, List.length_range]
    omega
  · intro i hi
    show aget (aset (aset (aset _ 56 _) 57 _) 58 _) i = _ ∨
      aget (aset (aset (aset _ 56 _) 57 _) 58 _) i = _
    by_cases h58 : i = 58
    · subst h58
      rw [aget_aset_self]
      split
      · exact Or.inl rfl
      · exact Or.inr rfl
    · rw [aget_aset_ne _ _ _ _ (by omega)]
      by_cases h57 : i = 57
      · subst h57
        rw [aget_aset_self]
        split
        · exact Or.inl rfl
        · exact Or.inr rfl
      · rw [aget_aset_ne _ _ _ _ (by omega)]
        by_cases h56 : i = 56
        · subst h56
          rw [aget_aset_self]
          split
          · exact Or.inl rfl
          · exact Or.inr rfl
        · rw [aget_aset_ne _ _ _ _ (by omega), aget_map_range _ _ _ hi]
          split
          · exact Or.inl rfl
          · exact Or.inr rfl

/-- Witness for C6 at two concrete length-59 parents. -/
theorem crossover_closure_witness :
    (List.replicate 59 (0 : ℚ)).length = (List.replicate 59 (1 : ℚ)).length ∧
    59 ≤ (List.replicate 59 (0 : ℚ)).length ∧
    ((crossoverE (fun _ => 0) (List.replicate 59 (0 : ℚ))
        (List.replicate 59 (1 : ℚ))).length
      = (List.replicate 59 (0 : ℚ)).length ∧
    ∀ i, i < (List.replicate 59 (0 : ℚ)).length →
      aget (crossoverE (fun _ => 0) (List.replicate 59 (0 : ℚ))
          (List.replicate 59 (1 : ℚ))) i
        = aget (List.replicate 59 (0 : ℚ)) i ∨
      aget (crossoverE (fun _ => 0) (List.replicate 59 (0 : ℚ))
          (List.replicate 59 (1 : ℚ))) i
        = aget (List.replicate 59 (1 : ℚ)) i) :=
  ⟨by simp, by simp,
    crossover_closure (fun _ => 0) (List.replicate 59 (0 : ℚ))
      (List.replicate 59 (1 : ℚ)) (by simp) (by simp)⟩

/-! ### Claim C5, post-mutation clamps -/

/-- Helper: both clamp bounds hold whenever the interval is nonempty. -/
theorem jsClamp_mem (x lo hi : ℚ) (h : lo ≤ hi) :
    lo ≤ jsClamp x lo hi ∧ jsClamp x lo hi ≤ hi :=
  ⟨le_jsClamp x lo hi, jsClamp_le x lo hi h⟩

/-- Helper: clamping an integer cast to [3,8] lands on an integer of
[3,8]. -/
theorem jsClamp_int_cast (m : ℤ) :
    ∃ n : ℤ, jsClamp (m : ℚ) 3 8 = (n : ℚ) ∧ 3 ≤ n ∧ n ≤ 8 := by
  refine ⟨max 3 (min 8 m), ?_, le_max_left _ _, ?_⟩
  · unfold jsClamp
    push_cast
    rfl
  · omega

/-- Helper: the mutation loop never changes the genotype length when every
visited index is in range. -/
theorem mutloop_length (u : Nat → ℚ) (rate : ℚ) (l : List Nat)
    (s : Nat × List ℚ) (hs : ∀ i ∈ l, i < s.2.length) :
    (l.foldl (mutStep u rate) s).2.length = s.2.length := by
  induction l generalizing s with
  | nil => rfl
  | cons a t ih =>
    have ha : a < s.2.length := hs a (by simp)
    have hstep : (mutStep u rate s a).2.length = s.2.length := by
      unfold mutStep
      dsimp only
      split
      · split
        · exact length_aset_of_lt _ _ _ ha
        · exact length_aset_of_lt _ _ _ ha
      · rfl
    rw [List.foldl_cons, ih]
    · exact hstep
    · intro i hi
      rw [hstep]
      exact hs i (List.mem_cons_of_mem _ hi)

set_option maxRecDepth 20000

set_option maxHeartbeats 2000000

/-- Pointwise description of one limb iteration of the clamp block. -/
theorem aget_mutLimbStep_ite (g : List ℚ) (i j : Nat) :
    aget (mutLimbStep g i) j =
      if 3 + i * 5 + 1 = j then max (aget g (3 + i * 5 + 1)) 1
      else if 3 + i * 5 + 2 = j then jsClamp (aget g (3 + i * 5 + 2)) (1/20) 1
      else if 3 + i * 5 + 3 = j then
        jsClamp (aget g (3 + i * 5 + 3)) (1/10) (19/20)
      else aget g j := by
  unfold mutLimbStep
  by_cases h1 : 3 + i * 5 + 1 = j
  · rw [if_pos h1, aget_aclamp, if_neg (by omega), aget_aclamp,
      if_neg (by omega), aget_afloor, if_pos h1, h1]
  · rw [if_neg h1]
    by_cases h2 : 3 + i * 5 + 2 = j
    · rw [if_pos h2, aget_aclamp, if_neg (by omega), aget_aclamp, if_pos h2,
        aget_afloor, if_neg (by omega), h2]
    · rw [if_neg h2]
      by_cases h3 : 3 + i * 5 + 3 = j
      · rw [if_pos h3, aget_aclamp, if_pos h3, aget_aclamp,
          if_neg (by omega), aget_afloor, if_neg (by omega), h3]
      · rw [if_neg h3, aget_aclamp, if_neg h3, aget_aclamp, if_neg h2,
          aget_afloor, if_neg h1]

/-- Length of one limb iteration of the clamp block. -/
theorem length_mutLimbStep (g : List ℚ) (i : Nat) :
    (mutLimbStep g i).length = max g.length (3 + i * 5 + 4) := by
  unfold mutLimbStep
  rw [length_aclamp, length_aclamp, length_afloor]
  omega

/-- C5 (amended): for a full-length genotype, after `mutate` all the
documented clamps hold: sides is an integer in [3,8]; both symmetry
factors lie in [0,1]; the color channels are clamped to [0,255] (the
source clamps but does not round them); the five physical-trait scalars
are in their canonical ranges; frequency is at least 1 and amplitude at
least 0.5; and each limb's base-length is at least 1, branch-angle lies in
[0.05,1] and length-ratio in [0.1,0.95].  The length is preserved. -/
theorem mutate_clamp_invariants (u : Nat → ℚ) (rate : ℚ) (g : List ℚ)
    (hg : g.length = 65) :
    (mutateE 8 u rate g).length = 65 ∧
    (∃ n : ℤ, aget (mutateE 8 u rate g) 53 = (n : ℚ) ∧ 3 ≤ n ∧ n ≤ 8) ∧
    (0 ≤ aget (mutateE 8 u rate g) 54 ∧ aget (mutateE 8 u rate g) 54 ≤ 1) ∧
    (0 ≤ aget (mutateE 8 u rate g) 55 ∧ aget (mutateE 8 u rate g) 55 ≤ 1) ∧
    (0 ≤ aget (mutateE 8 u rate g) 56 ∧ aget (mutateE 8 u rate g) 56 ≤ 255) ∧
    (0 ≤ aget (mutateE 8 u rate g) 57 ∧ aget (mutateE 8 u rate g) 57 ≤ 255) ∧
    (0 ≤ aget (mutateE 8 u rate g) 58 ∧ aget (mutateE 8 u rate g) 58 ≤ 255) ∧
    (1/2 ≤ aget (mutateE 8 u rate g) 60 ∧ aget (mutateE 8 u rate g) 60 ≤ 3/2) ∧
    (7/10 ≤ aget (mutateE 8 u rate g) 61 ∧
      aget (mutateE 8 u rate g) 61 ≤ 13/10) ∧
    (4/5 ≤ aget (mutateE 8 u rate g) 62 ∧ aget (mutateE 8 u rate g) 62 ≤ 6/5) ∧
    (4/5 ≤ aget (mutateE 8 u rate g) 63 ∧ aget (mutateE 8 u rate g) 63 ≤ 6/5) ∧
    (4/5 ≤ aget (mutateE 8 u rate g) 64 ∧ aget (mutateE 8 u rate g) 64 ≤ 3/2) ∧
    1 ≤ aget (mutateE 8 u rate g) 43 ∧
    1/2 ≤ aget (mutateE 8 u rate g) 44 ∧
    ∀ i, i < 8 →
      1 ≤ aget (mutateE 8 u rate g) (3 + i * 5 + 1) ∧
      (1/20 ≤ aget (mutateE 8 u rate g) (3 + i * 5 + 2) ∧
        aget (mutateE 8 u rate g) (3 + i * 5 + 2) ≤ 1) ∧
      (1/10 ≤ aget (mutateE 8 u rate g) (3 + i * 5 + 3) ∧
        aget (mutateE 8 u rate g) (3 + i * 5 + 3) ≤ 19/20) := by
  have h8 : List.range 8 = [0, 1, 2, 3, 4, 5, 6, 7] := rfl
  unfold mutateE
  generalize hG : ((List.range g.length).foldl (mutStep u rate) (0, g)).2 = p
  have hp : p.length = 65 := by
    rw [← hG, ← hg]
    exact mutloop_length u rate _ _ (by simp)
  clear hG hg
  refine ⟨?_, ?_⟩
  · simp only [mutClamps, h8, List.foldl_cons, List.foldl_nil,
      length_mutLimbStep, length_aset, length_aclamp, length_afloor, hp]
    omega
  · have hfix :
        (∃ n : ℤ, aget (mutClamps 8 p) 53 = (n : ℚ) ∧ 3 ≤ n ∧ n ≤ 8) ∧
        (0 ≤ aget (mutClamps 8 p) 54 ∧ aget (mutClamps 8 p) 54 ≤ 1) ∧
        (0 ≤ aget (mutClamps 8 p) 55 ∧ aget (mutClamps 8 p) 55 ≤ 1) ∧
        (0 ≤ aget (mutClamps 8 p) 56 ∧ aget (mutClamps 8 p) 56 ≤ 255) ∧
        (0 ≤ aget (mutClamps 8 p) 57 ∧ aget (mutClamps 8 p) 57 ≤ 255) ∧
        (0 ≤ aget (mutClamps 8 p) 58 ∧ aget (mutClamps 8 p) 58 ≤ 255) ∧
        (1/2 ≤ aget (mutClamps 8 p) 60 ∧ aget (mutClamps 8 p) 60 ≤ 3/2) ∧
        (7/10 ≤ aget (mutClamps 8 p) 61 ∧ aget (mutClamps 8 p) 61 ≤ 13/10) ∧
        (4/5 ≤ aget (mutClamps 8 p) 62 ∧ aget (mutClamps 8 p) 62 ≤ 6/5) ∧
        (4/5 ≤ aget (mutClamps 8 p) 63 ∧ aget (mutClamps 8 p) 63 ≤ 6/5) ∧
        (4/5 ≤ aget (mutClamps 8 p) 64 ∧ aget (mutClamps 8 p) 64 ≤ 3/2) ∧
        1 ≤ aget (mutClamps 8 p) 43 ∧
        1/2 ≤ aget (mutClamps 8 p) 44 := by
      simp only [mutClamps, h8, List.foldl_cons, List.foldl_nil, jsRound,
        aget_mutLimbStep_ite, aget_aclamp, aget_afloor, aget_aset_ite,
        reduceIte]
      exact ⟨jsClamp_int_cast _, jsClamp_mem _ _ _ (by norm_num),
        jsClamp_mem _ _ _ (by norm_num), jsClamp_mem _ _ _ (by norm_num),
        jsClamp_mem _ _ _ (by norm_num), jsClamp_mem _ _ _ (by norm_num),
        jsClamp_mem _ _ _ (by norm_num), jsClamp_mem _ _ _ (by norm_num),
        jsClamp_mem _ _ _ (by norm_num), jsClamp_mem _ _ _ (by norm_num),
        jsClamp_mem _ _ _ (by norm_num), le_max_right _ _, le_max_right _ _⟩
    refine ⟨hfix.1, hfix.2.1, hfix.2.2.1, hfix.2.2.2.1, hfix.2.2.2.2.1,
      hfix.2.2.2.2.2.1, hfix.2.2.2.2.2.2.1, hfix.2.2.2.2.2.2.2.1,
      hfix.2.2.2.2.2.2.2.2.1, hfix.2.2.2.2.2.2.2.2.2.1,
      hfix.2.2.2.2.2.2.2.2.2.2.1, hfix.2.2.2.2.2.2.2.2.2.2.2.1,
      hfix.2.2.2.2.2.2.2.2.2.2.2.2, ?_⟩
    have hlimb :
        (1 ≤ aget (mutClamps 8 p) 4 ∧
          (1/20 ≤ aget (mutClamps 8 p) 5 ∧ aget (mutClamps 8 p) 5 ≤ 1) ∧
          (1/10 ≤ aget (mutClamps 8 p) 6 ∧
            aget (mutClamps 8 p) 6 ≤ 19/20)) ∧
        (1 ≤ aget (mutClamps 8 p) 9 ∧
          (1/20 ≤ aget (mutClamps 8 p) 10 ∧ aget (mutClamps 8 p) 10 ≤ 1) ∧
          (1/10 ≤ aget (mutClamps 8 p) 11 ∧
            aget (mutClamps 8 p) 11 ≤ 19/20)) ∧
        (1 ≤ aget (mutClamps 8 p) 14 ∧
          (1/20 ≤ aget (mutClamps 8 p) 15 ∧ aget (mutClamps 8 p) 15 ≤ 1) ∧
          (1/10 ≤ aget (mutClamps 8 p) 16 ∧
            aget (mutClamps 8 p) 16 ≤ 19/20)) ∧
        (1 ≤ aget (mutClamps 8 p) 19 ∧
          (1/20 ≤ aget (mutClamps 8 p) 20 ∧ aget (mutClamps 8 p) 20 ≤ 1) ∧
          (1/10 ≤ aget (mutClamps 8 p) 21 ∧
            aget (mutClamps 8 p) 21 ≤ 19/20)) ∧
        (1 ≤ aget (mutClamps 8 p) 24 ∧
          (1/20 ≤ aget (mutClamps 8 p) 25 ∧ aget (mutClamps 8 p) 25 ≤ 1) ∧
          (1/10 ≤ aget (mutClamps 8 p) 26 ∧
            aget (mutClamps 8 p) 26 ≤ 19/20)) ∧
        (1 ≤ aget (mutClamps 8 p) 29 ∧
          (1/20 ≤ aget (mutClamps 8 p) 30 ∧ aget (mutClamps 8 p) 30 ≤ 1) ∧
          (1/10 ≤ aget (mutClamps 8 p) 31 ∧
            aget (mutClamps 8 p) 31 ≤ 19/20)) ∧
        (1 ≤ aget (mutClamps 8 p) 34 ∧
          (1/20 ≤ aget (mutClamps 8 p) 35 ∧ aget (mutClamps 8 p) 35 ≤ 1) ∧
          (1/10 ≤ aget (mutClamps 8 p) 36 ∧
            aget (mutClamps 8 p) 36 ≤ 19/20)) ∧
        (1 ≤ aget (mutClamps 8 p) 39 ∧
          (1/20 ≤ aget (mutClamps 8 p) 40 ∧ aget (mutClamps 8 p) 40 ≤ 1) ∧
          (1/10 ≤ aget (mutClamps 8 p) 41 ∧
            aget (mutClamps 8 p) 41 ≤ 19/20)) := by
      simp only [mutClamps, h8, List.foldl_cons, List.foldl_nil,
        aget_mutLimbStep_ite, aget_aclamp, aget_afloor, aget_aset_ite,
        reduceIte]
      exact ⟨⟨le_max_right _ _, jsClamp_mem _ _ _ (by norm_num), jsClamp_mem _ _ _ (by norm_num)⟩,
        ⟨le_max_right _ _, jsClamp_mem _ _ _ (by norm_num), jsClamp_mem _ _ _ (by norm_num)⟩,
        ⟨le_max_right _ _, jsClamp_mem _ _ _ (by norm_num), jsClamp_mem _ _ _ (by norm_num)⟩,
        ⟨le_max_right _ _, jsClamp_mem _ _ _ (by norm_num), jsClamp_mem _ _ _ (by norm_num)⟩,
        ⟨le_max_right _ _, jsClamp_mem _ _ _ (by norm_num), jsClamp_mem _ _ _ (by norm_num)⟩,
        ⟨le_max_right _ _, jsClamp_mem _ _ _ (by norm_num), jsClamp_mem _ _ _ (by norm_num)⟩,
        ⟨le_max_right _ _, jsClamp_mem _ _ _ (by norm_num), jsClamp_mem _ _ _ (by norm_num)⟩,
        ⟨le_max_right _ _, jsClamp_mem _ _ _ (by norm_num), jsClamp_mem _ _ _ (by norm_num)⟩⟩
    intro i hi
    interval_cases i
    · exact hlimb.1
    · exact hlimb.2.1
    · exact hlimb.2.2.1
    · exact hlimb.2.2.2.1
    · exact hlimb.2.2.2.2.1
    · exact hlimb.2.2.2.2.2.1
    · exact hlimb.2.2.2.2.2.2.1
    · exact hlimb.2.2.2.2.2.2.2

/-- Witness for C5 at the all-zero genotype. -/
theorem mutate_clamp_invariants_witness :
    (List.replicate 65 (0 : ℚ)).length = 65 ∧
    (∃ n : ℤ,
      aget (mutateE 8 (fun _ => 0) 0 (List.replicate 65 (0 : ℚ))) 53
        = (n : ℚ) ∧ 3 ≤ n ∧ n ≤ 8) ∧
    1 ≤ aget (mutateE 8 (fun _ => 0) 0 (List.replicate 65 (0 : ℚ))) 43 :=
  ⟨by simp,
    (mutate_clamp_invariants (fun _ => 0) 0 (List.replicate 65 (0 : ℚ))
      (by simp)).2.1,
    (mutate_clamp_invariants (fun _ => 0) 0 (List.replicate 65 (0 : ℚ))
      (by simp)).2.2.2.2.2.2.2.2.2.2.2.2.1⟩

/-- Counterexample for C5 as stated: the color channels are clamped but
not rounded.  Starting from a genotype whose red channel is 10.5, with a
mutation rate of 0 (so the perturbation loop does nothing), the mutated
red channel is still 10.5, not equal to its own rounding. -/
theorem mutate_does_not_round_colors :
    aget (mutateE 8 (fun _ => 0) 0
        (aset (List.replicate 65 (0 : ℚ)) 56 (21/2))) 56 = 21/2 ∧
    aget (mutateE 8 (fun _ => 0) 0
        (aset (List.replicate 65 (0 : ℚ)) 56 (21/2))) 56 ≠
      jsRound (aget (mutateE 8 (fun _ => 0) 0
        (aset (List.replicate 65 (0 : ℚ)) 56 (21/2))) 56) := by
  have h8 : List.range 8 = [0, 1, 2, 3, 4, 5, 6, 7] := rfl
  have hloop : ∀ (l : List Nat) (s : Nat × List ℚ),
      (l.foldl (mutStep (fun _ => (0 : ℚ)) 0) s).2 = s.2 := by
    intro l
    induction l with
    | nil => intro s; rfl
    | cons a t ih =>
      intro s
      rw [List.foldl_cons]
      rw [ih]
      simp [mutStep]
  have h56 : aget (mutateE 8 (fun _ => 0) 0
      (aset (List.replicate 65 (0 : ℚ)) 56 (21/2))) 56 = 21/2 := by
    unfold mutateE
    rw [hloop]
    simp only [mutClamps, h8, List.foldl_cons, List.foldl_nil,
      aget_mutLimbStep_ite, aget_aclamp, aget_afloor, aget_aset_ite,
      reduceIte]
    norm_num [jsClamp]
  refine ⟨h56, ?_⟩
  rw [h56]
  unfold jsRound
  rw [show ((21 : ℚ)/2 + 1/2) = ((11 : ℤ) : ℚ) by norm_num, Int.floor_intCast]
  norm_num

/-! ### Physics embedding over ℝ (index.html)

The collision resolver and integrator use Math.sqrt and Math.PI, so they
are embedded over the real numbers.  A crab here carries the per-tick
accumulator fields `_fx, _fy, _torque, _inertia, _currentThrust` (named
without the underscore). -/

/-- A crab as the physics loop of index.html sees it.  The genotype is a
total map from gene index to value; the claims only read fixed in-range
slots. -/
structure PCrab where
  geno : Nat → ℝ
  x : ℝ
  y : ℝ
  vx : ℝ
  vy : ℝ
  omega : ℝ
  orientation : ℝ
  energy : ℝ
  fx : ℝ
  fy : ℝ
  torque : ℝ
  inertia : ℝ
  currentThrust : ℝ

/-- Modelled from the spec: `getCachedGene` is imported by index.html from
util.js but absent from the shipped util.js.  Per spec section 3 a creature
holds no derived trait state "outside an optional read-through cache keyed
by gene index", so the cache is semantically a plain gene read. -/
def getCachedGeneE (c : PCrab) (i : Nat) : ℝ := c.geno i

/-- Math.sign. -/
noncomputable def jsSign (x : ℝ) : ℝ := if x < 0 then -1 else if 0 < x then 1 else 0

/-- Truncation toward zero, as JS float-to-int conversion inside `%`. -/
noncomputable def jsTrunc (x : ℝ) : ℤ := if 0 ≤ x then ⌊x⌋ else ⌈x⌉

/-- The JS remainder operator `x % d`: `x - d * trunc(x / d)`.  Its result
has the sign of the dividend `x`, unlike a mathematical modulus. -/
noncomputable def jsRem (x d : ℝ) : ℝ := x - d * (jsTrunc (x / d) : ℝ)

/-- The angular acceleration computed by `integrateCrab` (index.html):
`TORQUE_MULTIPLIER = 20`, speed-dependent attenuation
`0.7 + 0.3 * min(1, speed/10)`, divided by `_inertia || 1`. -/
noncomputable def alphaE (c : PCrab) : ℝ :=
  c.torque * 20 * getCachedGeneE c 63
    * (7/10 + 3/10 * min 1 (Real.sqrt (c.vx * c.vx + c.vy * c.vy) / 10))
    / (if c.inertia = 0 then 1 else c.inertia)

/-- The `integrateCrab` of index.html with `TIME_STEP = 0.1`: semi-implicit
Euler step, angular-velocity clamp at magnitude 8, orientation reduced by
the JS `%` against 2π, and the metabolic charge
`(BASAL_METABOLISM_COST + thrust * THRUST_ENERGY_COST) * dt`.  The
non-finite-input guards of the source are vacuous over ℝ. -/
noncomputable def integrateCrabE (c : PCrab) : PCrab :=
  let dt : ℝ := 1/10
  let vx2 := c.vx + c.fx * dt
  let vy2 := c.vy + c.fy * dt
  let omega2 := c.omega + alphaE c * dt
  let omega3 := if 8 < |omega2| then jsSign omega2 * 8 else omega2
  { c with
    vx := vx2
    vy := vy2
    omega := omega3
    x := c.x + vx2 * dt
    y := c.y + vy2 * dt
    orientation := jsRem (c.orientation + omega3 * dt) (2 * Real.pi)
    energy := c.energy - (1/20 + c.currentThrust * (1/5)) * dt
    currentThrust := 0 }

/-- The JS remainder lies strictly within (-d, d) for positive d, and
differs from the dividend by an integer multiple of d. -/
theorem jsRem_bounds (x d : ℝ) (hd : 0 < d) :
    |jsRem x d| < d ∧ ∃ k : ℤ, jsRem x d = x - d * (k : ℝ) := by
  refine ⟨?_, jsTrunc (x / d), rfl⟩
  unfold jsRem jsTrunc
  split
  · next h =>
    have h1 : jsRem x d = d * Int.fract (x / d) := by
      unfold jsRem jsTrunc Int.fract
      rw [if_pos h]
      field_simp
    rw [abs_lt]
    constructor
    · have := Int.fract_nonneg (x / d)
      have h2 : x - d * (⌊x / d⌋ : ℝ) = d * Int.fract (x / d) := by
        unfold Int.fract
        field_simp
      nlinarith
    · have := Int.fract_lt_one (x / d)
      have h2 : x - d * (⌊x / d⌋ : ℝ) = d * Int.fract (x / d) := by
        unfold Int.fract
        field_simp
      nlinarith
  · next h =>
    have hceil1 := Int.le_ceil (x / d)
    have hceil2 := Int.ceil_lt_add_one (x / d)
    rw [abs_lt]
    constructor
    · have : x / d ≤ (⌈x / d⌉ : ℝ) := hceil1
      have hx : x = d * (x / d) := by
        field_simp
      nlinarith
    · have : (⌈x / d⌉ : ℝ) < x / d + 1 := hceil2
      have hx : x = d * (x / d) := by
        field_simp
      nlinarith

/-! ### Claim C8, the integration step -/

/-- C8 (amended): `integrateCrab` performs the semi-implicit Euler step
with dt = 0.1: velocity is updated by force times dt and angular velocity
by `alpha` times dt before the position update, which uses the updated
velocity; the angular velocity is clamped to magnitude 8; and the new
orientation is the JS remainder of (old orientation + new omega * dt)
against 2π, hence equals that sum minus an integer multiple of 2π and has
magnitude below 2π — but it is wrapped into (-2π, 2π) with the sign of the
dividend, not into [0, 2π). -/
theorem integrateCrab_step (c : PCrab) :
    (integrateCrabE c).vx = c.vx + c.fx * (1/10) ∧
    (integrateCrabE c).vy = c.vy + c.fy * (1/10) ∧
    (integrateCrabE c).omega =
      (if 8 < |c.omega + alphaE c * (1/10)| then
        jsSign (c.omega + alphaE c * (1/10)) * 8
      else c.omega + alphaE c * (1/10)) ∧
    |(integrateCrabE c).omega| ≤ 8 ∧
    (integrateCrabE c).x = c.x + (c.vx + c.fx * (1/10)) * (1/10) ∧
    (integrateCrabE c).y = c.y + (c.vy + c.fy * (1/10)) * (1/10) ∧
    (integrateCrabE c).orientation =
      jsRem (c.orientation + (integrateCrabE c).omega * (1/10))
        (2 * Real.pi) ∧
    |(integrateCrabE c).orientation| < 2 * Real.pi ∧
    ∃ k : ℤ,
      (integrateCrabE c).orientation =
        c.orientation + (integrateCrabE c).omega * (1/10)
          - 2 * Real.pi * (k : ℝ) := by
  have hpi : (0 : ℝ) < 2 * Real.pi := by positivity
  have homega : |(integrateCrabE c).omega| ≤ 8 := by
    show |if 8 < |c.omega + alphaE c * (1/10)| then
        jsSign (c.omega + alphaE c * (1/10)) * 8
      else c.omega + alphaE c * (1/10)| ≤ 8
    split
    · next h =>
      unfold jsSign
      split
      · rw [abs_of_nonpos (by norm_num)]
        norm_num
      · split
        · rw [abs_of_nonneg (by norm_num)]
          norm_num
        · next h1 h2 =>
          have : c.omega + alphaE c * (1/10) = 0 := le_antisymm
            (not_lt.mp h2) (not_lt.mp h1)
          rw [this] at h
          simp at h
          linarith [abs_nonneg ((0 : ℝ))]
    · next h =>
      exact le_of_not_lt (by simpa using h)
  obtain ⟨hb, k, hk⟩ := jsRem_bounds
    (c.orientation + (integrateCrabE c).omega * (1/10)) (2 * Real.pi) hpi
  exact ⟨rfl, rfl, rfl, homega, rfl, rfl, rfl, hb, k, hk⟩

/-- Crab used as the C8 counterexample input: at rest, spinning with
omega = -1, orientation 0, unit inertia, no forces. -/
def c8crab : PCrab :=
  { geno := fun _ => 1, x := 0, y := 0, vx := 0, vy := 0, omega := -1
    orientation := 0, energy := 0, fx := 0, fy := 0, torque := 0
    inertia := 1, currentThrust := 0 }

/-- Counterexample for C8 as stated: for a crab with orientation 0 and
omega = -1, the integrated orientation is -0.1, which does not lie in
[0, 2π): the JS remainder keeps the sign of its dividend. -/
theorem integrateCrab_orientation_not_wrapped :
    (integrateCrabE c8crab).orientation = -(1/10) ∧
    ¬ 0 ≤ (integrateCrabE c8crab).orientation := by
  have halpha : alphaE c8crab = 0 := by
    unfold alphaE getCachedGeneE c8crab
    norm_num
  have homega : (integrateCrabE c8crab).omega = -1 := by
    show (if 8 < |c8crab.omega + alphaE c8crab * (1/10)| then
        jsSign (c8crab.omega + alphaE c8crab * (1/10)) * 8
      else c8crab.omega + alphaE c8crab * (1/10)) = -1
    rw [halpha]
    rw [if_neg]
    · norm_num [c8crab]
    · norm_num [c8crab]
  have hor : (integrateCrabE c8crab).orientation
      = jsRem (-(1/10)) (2 * Real.pi) := by
    have h1 : (integrateCrabE c8crab).orientation
        = jsRem (c8crab.orientation + (integrateCrabE c8crab).omega * (1/10))
          (2 * Real.pi) := rfl
    rw [h1, homega]
    norm_num [c8crab]
  have hdpos : (0 : ℝ) < 2 * Real.pi := by positivity
  have hcalc : jsRem (-(1/10)) (2 * Real.pi) = -(1/10) := by
    unfold jsRem jsTrunc
    have ht : -(1/10) / (2 * Real.pi) < 0 := by
      apply div_neg_of_neg_of_pos
      · norm_num
      · exact hdpos
    rw [if_neg (not_le.mpr ht)]
    have hlt1 : (1 : ℝ)/10 / (2 * Real.pi) < 1 := by
      rw [div_lt_one hdpos]
      nlinarith [Real.pi_gt_three]
    have hceil : ⌈-(1/10) / (2 * Real.pi)⌉ = 0 := by
      rw [Int.ceil_eq_zero_iff, Set.mem_Ioc]
      constructor
      · have : -(1/10) / (2 * Real.pi) = -((1:ℝ)/10 / (2 * Real.pi)) := by
          ring
        rw [this]
        linarith
      · exact le_of_lt ht
    rw [hceil]
    push_cast
    ring
  rw [hor, hcalc]
  norm_num

/-! ### Collision resolution (index.html, handleCrabCollision)

Named subexpressions of the narrow phase, shared between the embedding
and the claims: `CONFIG.RESTITUTION = 0.5`,
`CONFIG.COLLISION_REPULSION = 0.5`, `CONFIG.COLLISION_TORQUE_FACTOR =
120`, `CONFIG.REPRO_ENERGY_THRESHOLD = 60`,
`CONFIG.COLLISION_ENERGY_COST_FACTOR = 0.05`. -/

/-- Separation in x: `dx = B.x - A.x`. -/
def pdx (A B : PCrab) : ℝ := B.x - A.x

/-- Separation in y: `dy = B.y - A.y`. -/
def pdy (A B : PCrab) : ℝ := B.y - A.y

/-- Squared distance `dx*dx + dy*dy`. -/
def pdistSq (A B : PCrab) : ℝ := pdx A B * pdx A B + pdy A B * pdy A B

/-- Sum of radii `minDist`. -/
def pminDist (A B : PCrab) : ℝ := getCachedGeneE A 0 + getCachedGeneE B 0

/-- The distance `Math.sqrt(distSq) || 0.0001` (the JS or-guard replaces a
zero square root by 0.0001). -/
noncomputable def pdist (A B : PCrab) : ℝ :=
  if Real.sqrt (pdistSq A B) = 0 then 1/10000 else Real.sqrt (pdistSq A B)

/-- Contact normal x component `nx = dx / dist`. -/
noncomputable def pnx (A B : PCrab) : ℝ := pdx A B / pdist A B

/-- Contact normal y component `ny = dy / dist`. -/
noncomputable def pny (A B : PCrab) : ℝ := pdy A B / pdist A B

/-- Closing speed along the normal:
`approach = (B.vx - A.vx)*nx + (B.vy - A.vy)*ny`. -/
noncomputable def papproach (A B : PCrab) : ℝ :=
  (B.vx - A.vx) * pnx A B + (B.vy - A.vy) * pny A B

/-- The impulse scalar `j = -(1+e)*approach*0.5` with
`e = RESTITUTION * (elasticityA + elasticityB)/2` and
`RESTITUTION = 0.5`. -/
noncomputable def pimpulse (A B : PCrab) : ℝ :=
  -(1 + (1/2) * ((getCachedGeneE A 62 + getCachedGeneE B 62) / 2))
    * papproach A B * (1/2)

/-- The `handleCrabCollision` of index.html.  The reproduction call is the
`repro` parameter (index.html imports `triggerReproduction`); the
collision-effect emissions are rendering-only and omitted.  Returns the
updated pair and the offspring passed to the accumulator, if any. -/
noncomputable def handleCrabCollisionE
    (repro : PCrab → PCrab → PCrab × PCrab × Option PCrab)
    (A B : PCrab) : PCrab × PCrab × Option PCrab :=
  let radiusA := getCachedGeneE A 0
  let radiusB := getCachedGeneE B 0
  if A.x + radiusA < B.x - radiusB ∨ A.x - radiusA > B.x + radiusB ∨
      A.y + radiusA < B.y - radiusB ∨ A.y - radiusA > B.y + radiusB then
    (A, B, none)
  else if pdistSq A B ≥ pminDist A B * pminDist A B then (A, B, none)
  else
    let dist := pdist A B
    let overlap := pminDist A B - dist
    let nx := pnx A B
    let ny := pny A B
    let approach := papproach A B
    let j := if approach < 0 then pimpulse A B else 0
    let impx := j * nx
    let impy := j * ny
    let cAx := A.x + radiusA * nx
    let cAy := A.y + radiusA * ny
    let cBx := B.x - radiusB * nx
    let cBy := B.y - radiusB * ny
    let glancing := 1 - |nx * pdx A B + ny * pdy A B| / dist
    let torqueA := ((cAx - A.x) * -impy - (cAy - A.y) * -impx) * (1 + glancing)
    let torqueB := ((cBx - B.x) * impy - (cBy - B.y) * impx) * (1 + glancing)
    let A1 := if approach < 0 then
        { A with
          vx := A.vx - impx
          vy := A.vy - impy
          omega := A.omega
            - torqueA * 120 / (if A.inertia = 0 then 1 else A.inertia) }
      else A
    let B1 := if approach < 0 then
        { B with
          vx := B.vx + impx
          vy := B.vy + impy
          omega := B.omega
            + torqueB * 120 / (if B.inertia = 0 then 1 else B.inertia) }
      else B
    let push := (1/2) * overlap / 2
    let A2 := { A1 with x := A1.x - push * nx, y := A1.y - push * ny }
    let B2 := { B1 with x := B1.x + push * nx, y := B1.y + push * ny }
    if 60 ≤ A2.energy ∧ 60 ≤ B2.energy then repro A2 B2
    else if approach < 0 then
      let cost := (1/20) * min |j| 2
      if 0 < cost then
        ({ A2 with energy := max 0 (A2.energy - cost) },
         { B2 with energy := max 0 (B2.energy - cost) }, none)
      else (A2, B2, none)
    else (A2, B2, none)

/-! ### Claim C2, collision impulse and head-on exchange -/

/-- Shorthand for the hypothesis that the reproduction callback touches
only the parents' energies, never their velocities — true of
`triggerReproduction`, which the source plugs in here. -/
def ReproPreservesVel
    (repro : PCrab → PCrab → PCrab × PCrab × Option PCrab) : Prop :=
  ∀ a b : PCrab,
    (repro a b).1.vx = a.vx ∧ (repro a b).1.vy = a.vy ∧
    (repro a b).2.1.vx = b.vx ∧ (repro a b).2.1.vy = b.vy

/-- C2: when the circles overlap and the crabs are closing
(approach < 0), `handleCrabCollision` changes the velocities by exactly
the impulse `j = -(1+e)*approach*0.5`, `e = RESTITUTION * average
elasticity`, applied equally and oppositely along the contact normal; and
for two equal-radius crabs with elasticity genes giving `e = 1`, colliding
head-on with opposite equal velocities, the post-collision velocities are
exactly exchanged. -/
theorem collision_impulse_and_exchange :
    (∀ repro A B, ReproPreservesVel repro →
      0 ≤ getCachedGeneE A 0 → 0 ≤ getCachedGeneE B 0 →
      pdistSq A B < pminDist A B * pminDist A B →
      papproach A B < 0 →
      (handleCrabCollisionE repro A B).1.vx
          = A.vx - pimpulse A B * pnx A B ∧
      (handleCrabCollisionE repro A B).1.vy
          = A.vy - pimpulse A B * pny A B ∧
      (handleCrabCollisionE repro A B).2.1.vx
          = B.vx + pimpulse A B * pnx A B ∧
      (handleCrabCollisionE repro A B).2.1.vy
          = B.vy + pimpulse A B * pny A B) ∧
    (∀ repro A B (v r d : ℝ), ReproPreservesVel repro →
      A.x = 0 → A.y = 0 → B.x = d → B.y = 0 →
      A.vx = v → A.vy = 0 → B.vx = -v → B.vy = 0 →
      A.geno 0 = r → B.geno 0 = r → A.geno 62 = 2 → B.geno 62 = 2 →
      0 < v → 0 < d → d < 2 * r →
      (handleCrabCollisionE repro A B).1.vx = B.vx ∧
      (handleCrabCollisionE repro A B).1.vy = B.vy ∧
      (handleCrabCollisionE repro A B).2.1.vx = A.vx ∧
      (handleCrabCollisionE repro A B).2.1.vy = A.vy) := by
  have main : ∀ repro A B, ReproPreservesVel repro →
      0 ≤ getCachedGeneE A 0 → 0 ≤ getCachedGeneE B 0 →
      pdistSq A B < pminDist A B * pminDist A B →
      papproach A B < 0 →
      (handleCrabCollisionE repro A B).1.vx
          = A.vx - pimpulse A B * pnx A B ∧
      (handleCrabCollisionE repro A B).1.vy
          = A.vy - pimpulse A B * pny A B ∧
      (handleCrabCollisionE repro A B).2.1.vx
          = B.vx + pimpulse A B * pnx A B ∧
      (handleCrabCollisionE repro A B).2.1.vy
          = B.vy + pimpulse A B * pny A B := by
    intro repro A B hrepro hrA hrB hover happ
    have hmin0 : 0 ≤ pminDist A B := add_nonneg hrA hrB
    have hdsq0 : 0 ≤ pdistSq A B :=
      add_nonneg (mul_self_nonneg _) (mul_self_nonneg _)
    have hsqrtlt : Real.sqrt (pdistSq A B) < pminDist A B := by
      have h1 := Real.sqrt_lt_sqrt hdsq0 hover
      rwa [Real.sqrt_mul_self hmin0] at h1
    have hdx : |pdx A B| < pminDist A B := by
      have h1 : pdx A B * pdx A B ≤ pdistSq A B := by
        have := mul_self_nonneg (pdy A B)
        unfold pdistSq
        linarith
      have h2 : |pdx A B| = Real.sqrt (pdx A B * pdx A B) := by
        rw [Real.sqrt_mul_self_eq_abs]
      rw [h2]
      exact lt_of_le_of_lt (Real.sqrt_le_sqrt h1) hsqrtlt
    have hdy : |pdy A B| < pminDist A B := by
      have h1 : pdy A B * pdy A B ≤ pdistSq A B := by
        have := mul_self_nonneg (pdx A B)
        unfold pdistSq
        linarith
      have h2 : |pdy A B| = Real.sqrt (pdy A B * pdy A B) := by
        rw [Real.sqrt_mul_self_eq_abs]
      rw [h2]
      exact lt_of_le_of_lt (Real.sqrt_le_sqrt h1) hsqrtlt
    have hdxu := le_abs_self (pdx A B)
    have hdxl := neg_abs_le (pdx A B)
    have hdyu := le_abs_self (pdy A B)
    have hdyl := neg_abs_le (pdy A B)
    have haabb : ¬ (A.x + getCachedGeneE A 0 < B.x - getCachedGeneE B 0 ∨
        A.x - getCachedGeneE A 0 > B.x + getCachedGeneE B 0 ∨
        A.y + getCachedGeneE A 0 < B.y - getCachedGeneE B 0 ∨
        A.y - getCachedGeneE A 0 > B.y + getCachedGeneE B 0) := by
      simp only [pdx, pdy, pminDist] at hdx hdy hdxu hdxl hdyu hdyl
      push_neg
      refine ⟨by linarith, by linarith, by linarith, by linarith⟩
    unfold handleCrabCollisionE
    rw [if_neg haabb, if_neg (not_le.mpr hover)]
    dsimp only
    simp only [if_pos happ]
    by_cases hE : 60 ≤ A.energy ∧ 60 ≤ B.energy
    · rw [if_pos hE]
      exact ⟨(hrepro _ _).1, (hrepro _ _).2.1, (hrepro _ _).2.2.1,
        (hrepro _ _).2.2.2⟩
    · rw [if_neg hE]
      split
      · exact ⟨rfl, rfl, rfl, rfl⟩
      · exact ⟨rfl, rfl, rfl, rfl⟩
  refine ⟨main, ?_⟩
  intro repro A B v r d hrepro hAx hAy hBx hBy hAvx hAvy hBvx hBvy
    hAr hBr hAe hBe hv hd hd2r
  have hr : 0 < r := by linarith
  have hgA : getCachedGeneE A 0 = r := hAr
  have hgB : getCachedGeneE B 0 = r := hBr
  have hdxv : pdx A B = d := by
    unfold pdx
    rw [hBx, hAx]
    ring
  have hdyv : pdy A B = 0 := by
    unfold pdy
    rw [hBy, hAy]
    ring
  have hdsq : pdistSq A B = d * d := by
    unfold pdistSq
    rw [hdxv, hdyv]
    ring
  have hmind : pminDist A B = r + r := by
    unfold pminDist
    rw [hgA, hgB]
  have hover : pdistSq A B < pminDist A B * pminDist A B := by
    rw [hdsq, hmind]
    nlinarith
  have hsq : Real.sqrt (pdistSq A B) = d := by
    rw [hdsq, Real.sqrt_mul_self (le_of_lt hd)]
  have hdist : pdist A B = d := by
    unfold pdist
    rw [hsq, if_neg (ne_of_gt hd)]
  have hnx : pnx A B = 1 := by
    unfold pnx
    rw [hdxv, hdist, div_self (ne_of_gt hd)]
  have hny : pny A B = 0 := by
    unfold pny
    rw [hdyv, hdist, zero_div]
  have happv : papproach A B = -(2 * v) := by
    unfold papproach
    rw [hnx, hny, hAvx, hAvy, hBvx, hBvy]
    ring
  have happ : papproach A B < 0 := by
    rw [happv]
    linarith
  have himp : pimpulse A B = 2 * v := by
    unfold pimpulse getCachedGeneE
    rw [hAe, hBe, happv]
    ring
  obtain ⟨h1, h2, h3, h4⟩ := main repro A B hrepro
    (by rw [hgA]; linarith) (by rw [hgB]; linarith) hover happ
  rw [h1, h2, h3, h4, himp, hnx, hny, hAvx, hAvy, hBvx, hBvy]
  refine ⟨by ring, by ring, by ring, by ring⟩

/-- A reproduction callback that does nothing, used by the witness. -/
def reproNone : PCrab → PCrab → PCrab × PCrab × Option PCrab :=
  fun a b => (a, b, none)

/-- Witness crab A for C2: at the origin moving right with speed 1,
radius 2, elasticity gene 2. -/
def c2crabA : PCrab :=
  { geno := fun _ => 2, x := 0, y := 0, vx := 1, vy := 0, omega := 0
    orientation := 0, energy := 0, fx := 0, fy := 0, torque := 0
    inertia := 1, currentThrust := 0 }

/-- Witness crab B for C2: at (3,0) moving left with speed 1, radius 2,
elasticity gene 2. -/
def c2crabB : PCrab :=
  { geno := fun _ => 2, x := 3, y := 0, vx := -1, vy := 0, omega := 0
    orientation := 0, energy := 0, fx := 0, fy := 0, torque := 0
    inertia := 1, currentThrust := 0 }

/-- Witness for C2: the head-on pair at distance 3 with radius 2 and
elasticity 2 exchanges velocities exactly. -/
theorem collision_impulse_and_exchange_witness :
    ReproPreservesVel reproNone ∧
    (handleCrabCollisionE reproNone c2crabA c2crabB).1.vx = c2crabB.vx ∧
    (handleCrabCollisionE reproNone c2crabA c2crabB).1.vy = c2crabB.vy ∧
    (handleCrabCollisionE reproNone c2crabA c2crabB).2.1.vx = c2crabA.vx ∧
    (handleCrabCollisionE reproNone c2crabA c2crabB).2.1.vy = c2crabA.vy :=
  ⟨fun _ _ => ⟨rfl, rfl, rfl, rfl⟩,
    collision_impulse_and_exchange.2 reproNone c2crabA c2crabB 1 2 3
      (fun _ _ => ⟨rfl, rfl, rfl, rfl⟩) rfl rfl rfl rfl rfl rfl
      (by norm_num [c2crabB]) rfl rfl rfl rfl rfl
      (by norm_num) (by norm_num) (by norm_num)⟩

/-! ### The movement tick (index.html, updateMovement)

The per-crab force phase, the per-pair collision kernel and the
integrate-plus-wall phase are parameters: the claim verified here is about
the scheduling in `updateMovement` itself, and holds for any kernels
(`handleCrabCollisionE` instantiates `collide`).  The embedding also
records a trace of the index pairs handed to the collision kernel. -/

instance : Inhabited PCrab :=
  ⟨{ geno := fun _ => 0, x := 0, y := 0, vx := 0, vy := 0, omega := 0
     orientation := 0, energy := 0, fx := 0, fy := 0, torque := 0
     inertia := 1, currentThrust := 0 }⟩

/-- The spatial sort `population.sort((a, b) => a.x - b.x)`. -/
noncomputable def sortByX (pop : List PCrab) : List PCrab :=
  pop.mergeSort fun a b => decide (a.x ≤ b.x)

/-- The inner collision loop of `updateMovement`: for fixed `i` (crab A,
radius `rA` cached before the loop), scan `j` upward, break as soon as
crab B's left bound passes A's right bound, otherwise hand the pair to the
collision kernel, store the updated crabs back, collect any offspring in
`acc`, and log the pair in `tr`. -/
noncomputable def collideInner
    (collide : PCrab → PCrab → PCrab × PCrab × Option PCrab)
    (rA : ℝ) (i : Nat) (pop : List PCrab) (j : Nat)
    (acc : List PCrab) (tr : List (Nat × Nat)) :
    List PCrab × List PCrab × List (Nat × Nat) :=
  if hj : j < pop.length then
    let a := pop.getD i default
    let b := pop.getD j default
    let rB := getCachedGeneE b 0
    if b.x - rB > a.x + rA then (pop, acc, tr)
    else
      let r := collide a b
      collideInner collide rA i ((pop.set i r.1).set j r.2.1) (j + 1)
        (acc ++ r.2.2.toList) (tr ++ [(i, j)])
  else (pop, acc, tr)
termination_by pop.length - j
decreasing_by
  simp only [List.length_set]
  omega

/-- The inner loop never changes the population size. -/
theorem collideInner_length
    (collide : PCrab → PCrab → PCrab × PCrab × Option PCrab)
    (rA : ℝ) (i : Nat) :
    ∀ (n : Nat) (pop : List PCrab) (j : Nat) (acc : List PCrab)
      (tr : List (Nat × Nat)), pop.length - j ≤ n →
      (collideInner collide rA i pop j acc tr).1.length = pop.length := by
  intro n
  induction n with
  | zero =>
    intro pop j acc tr h
    unfold collideInner
    rw [dif_neg (by omega)]
  | succ n ih =>
    intro pop j acc tr h
    by_cases hj : j < pop.length
    · unfold collideInner
      rw [dif_pos hj]
      dsimp only
      split
      · rfl
      · have hlen : (((pop.set i (collide (pop.getD i default)
            (pop.getD j default)).1).set j (collide (pop.getD i default)
            (pop.getD j default)).2.1)).length = pop.length := by
          simp [List.length_set]
        rw [ih _ _ _ _ (by rw [hlen]; omega), hlen]
    · unfold collideInner
      rw [dif_neg hj]

/-- Every pair the inner loop logs beyond the incoming trace has first
index `i` and second index between `j` and the population size. -/
theorem collideInner_trace
    (collide : PCrab → PCrab → PCrab × PCrab × Option PCrab)
    (rA : ℝ) (i : Nat) :
    ∀ (n : Nat) (pop : List PCrab) (j : Nat) (acc : List PCrab)
      (tr : List (Nat × Nat)), pop.length - j ≤ n →
      ∀ pr ∈ (collideInner collide rA i pop j acc tr).2.2,
        pr ∈ tr ∨ (pr.1 = i ∧ j ≤ pr.2 ∧ pr.2 < pop.length) := by
  intro n
  induction n with
  | zero =>
    intro pop j acc tr h pr hpr
    unfold collideInner at hpr
    rw [dif_neg (by omega)] at hpr
    exact Or.inl hpr
  | succ n ih =>
    intro pop j acc tr h pr hpr
    by_cases hj : j < pop.length
    · unfold collideInner at hpr
      rw [dif_pos hj] at hpr
      dsimp only at hpr
      split at hpr
      · exact Or.inl hpr
      · have hlen : (((pop.set i (collide (pop.getD i default)
            (pop.getD j default)).1).set j (collide (pop.getD i default)
            (pop.getD j default)).2.1)).length = pop.length := by
          simp [List.length_set]
        have := ih _ _ _ _ (by rw [hlen]; omega) pr hpr
        rcases this with hin | hnew
        · rcases List.mem_append.mp hin with hold | hsing
          · exact Or.inl hold
          · have : pr = (i, j) := by simpa using hsing
            subst this
            exact Or.inr ⟨rfl, le_refl _, hj⟩
        · rw [hlen] at hnew
          exact Or.inr ⟨hnew.1, by omega, hnew.2.2⟩
    · unfold collideInner at hpr
      rw [dif_neg hj] at hpr
      exact Or.inl hpr

/-- The outer collision loop of `updateMovement`: for each index `i`,
cache crab A's radius, then run the inner sweep from `i + 1`. -/
noncomputable def collidePass
    (collide : PCrab → PCrab → PCrab × PCrab × Option PCrab)
    (pop : List PCrab) (i : Nat) (acc : List PCrab)
    (tr : List (Nat × Nat)) :
    List PCrab × List PCrab × List (Nat × Nat) :=
  if hi : i < pop.length then
    let a := pop.getD i default
    let rA := getCachedGeneE a 0
    let r := collideInner collide rA i pop (i + 1) acc tr
    collidePass collide r.1 (i + 1) r.2.1 r.2.2
  else (pop, acc, tr)
termination_by pop.length - i
decreasing_by
  rw [collideInner_length collide rA i (pop.length - (i + 1)) pop (i + 1)
    acc tr (le_refl _)]
  omega

/-- The outer loop never changes the population size. -/
theorem collidePass_length
    (collide : PCrab → PCrab → PCrab × PCrab × Option PCrab) :
    ∀ (n : Nat) (pop : List PCrab) (i : Nat) (acc : List PCrab)
      (tr : List (Nat × Nat)), pop.length - i ≤ n →
      (collidePass collide pop i acc tr).1.length = pop.length := by
  intro n
  induction n with
  | zero =>
    intro pop i acc tr h
    unfold collidePass
    rw [dif_neg (by omega)]
  | succ n ih =>
    intro pop i acc tr h
    by_cases hi : i < pop.length
    · unfold collidePass
      rw [dif_pos hi]
      dsimp only
      have hlen := collideInner_length collide
        (getCachedGeneE (pop.getD i default) 0) i (pop.length - (i + 1))
        pop (i + 1) acc tr (le_refl _)
      rw [ih _ _ _ _ (by rw [hlen]; omega), hlen]
    · unfold collidePass
      rw [dif_neg hi]

/-- Every pair the outer loop logs beyond the incoming trace is an ordered
pair of indices into the pre-pass population. -/
theorem collidePass_trace
    (collide : PCrab → PCrab → PCrab × PCrab × Option PCrab) :
    ∀ (n : Nat) (pop : List PCrab) (i : Nat) (acc : List PCrab)
      (tr : List (Nat × Nat)), pop.length - i ≤ n →
      ∀ pr ∈ (collidePass collide pop i acc tr).2.2,
        pr ∈ tr ∨ (pr.1 < pr.2 ∧ pr.2 < pop.length) := by
  intro n
  induction n with
  | zero =>
    intro pop i acc tr h pr hpr
    unfold collidePass at hpr
    rw [dif_neg (by omega)] at hpr
    exact Or.inl hpr
  | succ n ih =>
    intro pop i acc tr h pr hpr
    by_cases hi : i < pop.length
    · unfold collidePass at hpr
      rw [dif_pos hi] at hpr
      dsimp only at hpr
      have hlen := collideInner_length collide
        (getCachedGeneE (pop.getD i default) 0) i (pop.length - (i + 1))
        pop (i + 1) acc tr (le_refl _)
      have := ih _ _ _ _ (by rw [hlen]; omega) pr hpr
      rcases this with hin | hnew
      · have := collideInner_trace collide
          (getCachedGeneE (pop.getD i default) 0) i (pop.length - (i + 1))
          pop (i + 1) acc tr (le_refl _) pr hin
        rcases this with hold | hxx
        · exact Or.inl hold
        · exact Or.inr ⟨by omega, hxx.2.2⟩
      · rw [hlen] at hnew
        exact Or.inr hnew
    · unfold collidePass at hpr
      rw [dif_neg hi] at hpr
      exact Or.inl hpr

/-- The `updateMovement` of index.html: apply forces to every crab, sort
by x, run the pairwise collision sweep with an (initially empty) offspring
accumulator, integrate and wall-handle every crab of the (still
offspring-free) population, and only then append the buffered offspring.
The second component is the trace of collision pairs. -/
noncomputable def updateMovementE (forces integrateWall : PCrab → PCrab)
    (collide : PCrab → PCrab → PCrab × PCrab × Option PCrab)
    (pop : List PCrab) : List PCrab × List (Nat × Nat) :=
  let sorted := sortByX (pop.map forces)
  let r := collidePass collide sorted 0 [] []
  (r.1.map integrateWall ++ r.2.1, r.2.2)

/-! ### Claim C9, offspring deferred past the collision pass -/

/-- C9: in one `updateMovement` tick, for any force, collision and
integration kernels, the returned population is the processed pre-tick
population (same size as the input) with all offspring appended strictly
after it, and every pair handed to the collision kernel consists of two
indices below the pre-tick population size — a crab born during the tick
is never a collision partner in that tick. -/
theorem updateMovement_offspring_deferred
    (forces integrateWall : PCrab → PCrab)
    (collide : PCrab → PCrab → PCrab × PCrab × Option PCrab)
    (pop : List PCrab) :
    ∃ main offs,
      (updateMovementE forces integrateWall collide pop).1 = main ++ offs ∧
      main.length = pop.length ∧
      ∀ pr ∈ (updateMovementE forces integrateWall collide pop).2,
        pr.1 < pr.2 ∧ pr.2 < pop.length := by
  have hsortlen : (sortByX (pop.map forces)).length = pop.length := by
    unfold sortByX
    rw [List.length_mergeSort, List.length_map]
  refine ⟨(collidePass collide (sortByX (pop.map forces)) 0 [] []).1.map
      integrateWall,
    (collidePass collide (sortByX (pop.map forces)) 0 [] []).2.1,
    rfl, ?_, ?_⟩
  · rw [List.length_map,
      collidePass_length collide (sortByX (pop.map forces)).length _ 0 _ _
        (by omega), hsortlen]
  · intro pr hpr
    have := collidePass_trace collide (sortByX (pop.map forces)).length
      (sortByX (pop.map forces)) 0 [] [] (by omega) pr hpr
    rcases this with hin | hb
    · simp at hin
    · rw [hsortlen] at hb
      exact hb

/-! ### Claim C7, body-symmetry idempotence at factor 1 -/

/-- Two genotypes of equal length with equal reads everywhere are equal. -/
theorem aget_ext (l1 l2 : List ℚ) (hl : l1.length = l2.length)
    (h : ∀ j, j < l1.length → aget l1 j = aget l2 j) : l1 = l2 := by
  apply List.ext_getElem hl
  intro n h1 h2
  have hn := h n h1
  unfold aget at hn
  rw [List.getD_eq_getElem?_getD, List.getElem?_eq_getElem h1,
    List.getD_eq_getElem?_getD, List.getElem?_eq_getElem h2] at hn
  exact hn

/-- Pointwise description of one body-symmetry iteration at the shipped
half `4` (LIMB_COUNT 8); `i < 4` keeps the five writes and the two attach
reads disjoint. -/
theorem aget_bodySymStep4_ite (sf : ℚ) (g : List ℚ) (i j : Nat)
    (hi : i < 4) :
    aget (bodySymStep sf 4 g i) j =
      if 3 + (i + 4) * 5 = j then
        sf * (-(aget g (3 + i * 5))) + (1 - sf) * aget g (3 + (i + 4) * 5)
      else if 3 + (i + 4) * 5 + 1 = j then
        sf * aget g (3 + i * 5 + 1) + (1 - sf) * aget g (3 + (i + 4) * 5 + 1)
      else if 3 + (i + 4) * 5 + 2 = j then
        sf * aget g (3 + i * 5 + 2) + (1 - sf) * aget g (3 + (i + 4) * 5 + 2)
      else if 3 + (i + 4) * 5 + 3 = j then
        sf * aget g (3 + i * 5 + 3) + (1 - sf) * aget g (3 + (i + 4) * 5 + 3)
      else if 45 + (i + 4) = j then
        sf * (1 - aget g (45 + i)) + (1 - sf) * aget g (45 + (i + 4))
      else aget g j := by
  unfold bodySymStep
  dsimp only
  rw [aget_aset_ite]
  by_cases hA : 45 + (i + 4) = j
  · rw [if_pos hA, if_neg (by omega), if_neg (by omega), if_neg (by omega),
      if_neg (by omega), if_pos hA,
      aget_aset_ite, if_neg (by omega), aget_aset_ite, if_neg (by omega),
      aget_aset_ite, if_neg (by omega), aget_aset_ite, if_neg (by omega),
      aget_aset_ite, if_neg (by omega), aget_aset_ite, if_neg (by omega),
      aget_aset_ite, if_neg (by omega), aget_aset_ite, if_neg (by omega)]
  · rw [if_neg hA, aget_aset_ite]
    by_cases h3 : 3 + (i + 4) * 5 + 3 = j
    · rw [if_pos h3, if_neg (by omega), if_neg (by omega), if_neg (by omega),
        if_pos h3]
    · rw [if_neg h3, if_neg h3, aget_aset_ite]
      by_cases h2 : 3 + (i + 4) * 5 + 2 = j
      · rw [if_pos h2, if_neg (by omega), if_neg (by omega), if_pos h2]
      · rw [if_neg h2, if_neg h2, aget_aset_ite]
        by_cases h1 : 3 + (i + 4) * 5 + 1 = j
        · rw [if_pos h1, if_neg (by omega), if_pos h1]
        · rw [if_neg h1, if_neg h1, aget_aset_ite]
          by_cases h0 : 3 + (i + 4) * 5 = j
          · rw [if_pos h0, if_pos h0]
          · rw [if_neg h0, if_neg h0, if_neg hA]

/-- Instance of the body-symmetry step description at limb 0. -/
theorem aget_bodySymStep4_ite0 (sf : ℚ) (g : List ℚ) (j : Nat) :
    aget (bodySymStep sf 4 g 0) j =
      if 3 + (0 + 4) * 5 = j then
        sf * (-(aget g (3 + 0 * 5))) + (1 - sf) * aget g (3 + (0 + 4) * 5)
      else if 3 + (0 + 4) * 5 + 1 = j then
        sf * aget g (3 + 0 * 5 + 1) + (1 - sf) * aget g (3 + (0 + 4) * 5 + 1)
      else if 3 + (0 + 4) * 5 + 2 = j then
        sf * aget g (3 + 0 * 5 + 2) + (1 - sf) * aget g (3 + (0 + 4) * 5 + 2)
      else if 3 + (0 + 4) * 5 + 3 = j then
        sf * aget g (3 + 0 * 5 + 3) + (1 - sf) * aget g (3 + (0 + 4) * 5 + 3)
      else if 45 + (0 + 4) = j then
        sf * (1 - aget g (45 + 0)) + (1 - sf) * aget g (45 + (0 + 4))
      else aget g j :=
  aget_bodySymStep4_ite sf g 0 j (by omega)

/-- Instance of the body-symmetry step description at limb 1. -/
theorem aget_bodySymStep4_ite1 (sf : ℚ) (g : List ℚ) (j : Nat) :
    aget (bodySymStep sf 4 g 1) j =
      if 3 + (1 + 4) * 5 = j then
        sf * (-(aget g (3 + 1 * 5))) + (1 - sf) * aget g (3 + (1 + 4) * 5)
      else if 3 + (1 + 4) * 5 + 1 = j then
        sf * aget g (3 + 1 * 5 + 1) + (1 - sf) * aget g (3 + (1 + 4) * 5 + 1)
      else if 3 + (1 + 4) * 5 + 2 = j then
        sf * aget g (3 + 1 * 5 + 2) + (1 - sf) * aget g (3 + (1 + 4) * 5 + 2)
      else if 3 + (1 + 4) * 5 + 3 = j then
        sf * aget g (3 + 1 * 5 + 3) + (1 - sf) * aget g (3 + (1 + 4) * 5 + 3)
      else if 45 + (1 + 4) = j then
        sf * (1 - aget g (45 + 1)) + (1 - sf) * aget g (45 + (1 + 4))
      else aget g j :=
  aget_bodySymStep4_ite sf g 1 j (by omega)

/-- Instance of the body-symmetry step description at limb 2. -/
theorem aget_bodySymStep4_ite2 (sf : ℚ) (g : List ℚ) (j : Nat) :
    aget (bodySymStep sf 4 g 2) j =
      if 3 + (2 + 4) * 5 = j then
        sf * (-(aget g (3 + 2 * 5))) + (1 - sf) * aget g (3 + (2 + 4) * 5)
      else if 3 + (2 + 4) * 5 + 1 = j then
        sf * aget g (3 + 2 * 5 + 1) + (1 - sf) * aget g (3 + (2 + 4) * 5 + 1)
      else if 3 + (2 + 4) * 5 + 2 = j then
        sf * aget g (3 + 2 * 5 + 2) + (1 - sf) * aget g (3 + (2 + 4) * 5 + 2)
      else if 3 + (2 + 4) * 5 + 3 = j then
        sf * aget g (3 + 2 * 5 + 3) + (1 - sf) * aget g (3 + (2 + 4) * 5 + 3)
      else if 45 + (2 + 4) = j then
        sf * (1 - aget g (45 + 2)) + (1 - sf) * aget g (45 + (2 + 4))
      else aget g j :=
  aget_bodySymStep4_ite sf g 2 j (by omega)

/-- Instance of the body-symmetry step description at limb 3. -/
theorem aget_bodySymStep4_ite3 (sf : ℚ) (g : List ℚ) (j : Nat) :
    aget (bodySymStep sf 4 g 3) j =
      if 3 + (3 + 4) * 5 = j then
        sf * (-(aget g (3 + 3 * 5))) + (1 - sf) * aget g (3 + (3 + 4) * 5)
      else if 3 + (3 + 4) * 5 + 1 = j then
        sf * aget g (3 + 3 * 5 + 1) + (1 - sf) * aget g (3 + (3 + 4) * 5 + 1)
      else if 3 + (3 + 4) * 5 + 2 = j then
        sf * aget g (3 + 3 * 5 + 2) + (1 - sf) * aget g (3 + (3 + 4) * 5 + 2)
      else if 3 + (3 + 4) * 5 + 3 = j then
        sf * aget g (3 + 3 * 5 + 3) + (1 - sf) * aget g (3 + (3 + 4) * 5 + 3)
      else if 45 + (3 + 4) = j then
        sf * (1 - aget g (45 + 3)) + (1 - sf) * aget g (45 + (3 + 4))
      else aget g j :=
  aget_bodySymStep4_ite sf g 3 j (by omega)

/-- The body-symmetry step at blend weight 1 for limb 0: the right half
is overwritten with the pure mirror of the left half. -/
theorem aget_bodySymStep4_one0 (g : List ℚ) (j : Nat) :
    aget (bodySymStep 1 4 g 0) j =
      if 23 = j then -(aget g 3)
      else if 24 = j then aget g 4
      else if 25 = j then aget g 5
      else if 26 = j then aget g 6
      else if 49 = j then 1 - aget g 45
      else aget g j := by
  rw [aget_bodySymStep4_ite 1 g 0 j (by omega)]
  norm_num

/-- The body-symmetry step at blend weight 1 for limb 1: the right half
is overwritten with the pure mirror of the left half. -/
theorem aget_bodySymStep4_one1 (g : List ℚ) (j : Nat) :
    aget (bodySymStep 1 4 g 1) j =
      if 28 = j then -(aget g 8)
      else if 29 = j then aget g 9
      else if 30 = j then aget g 10
      else if 31 = j then aget g 11
      else if 50 = j then 1 - aget g 46
      else aget g j := by
  rw [aget_bodySymStep4_ite 1 g 1 j (by omega)]
  norm_num

/-- The body-symmetry step at blend weight 1 for limb 2: the right half
is overwritten with the pure mirror of the left half. -/
theorem aget_bodySymStep4_one2 (g : List ℚ) (j : Nat) :
    aget (bodySymStep 1 4 g 2) j =
      if 33 = j then -(aget g 13)
      else if 34 = j then aget g 14
      else if 35 = j then aget g 15
      else if 36 = j then aget g 16
      else if 51 = j then 1 - aget g 47
      else aget g j := by
  rw [aget_bodySymStep4_ite 1 g 2 j (by omega)]
  norm_num

/-- The body-symmetry step at blend weight 1 for limb 3: the right half
is overwritten with the pure mirror of the left half. -/
theorem aget_bodySymStep4_one3 (g : List ℚ) (j : Nat) :
    aget (bodySymStep 1 4 g 3) j =
      if 38 = j then -(aget g 18)
      else if 39 = j then aget g 19
      else if 40 = j then aget g 20
      else if 41 = j then aget g 21
      else if 52 = j then 1 - aget g 48
      else aget g j := by
  rw [aget_bodySymStep4_ite 1 g 3 j (by omega)]
  norm_num

/-- Value written at index 23 by the weight-1 body-symmetry step 0. -/
theorem aget_bs4_0_23 (g : List ℚ) :
    aget (bodySymStep 1 4 g 0) 23 = -(aget g 3) := by
  rw [aget_bodySymStep4_one0]
  norm_num

/-- Value written at index 24 by the weight-1 body-symmetry step 0. -/
theorem aget_bs4_0_24 (g : List ℚ) :
    aget (bodySymStep 1 4 g 0) 24 = aget g 4 := by
  rw [aget_bodySymStep4_one0]
  norm_num

/-- Value written at index 25 by the weight-1 body-symmetry step 0. -/
theorem aget_bs4_0_25 (g : List ℚ) :
    aget (bodySymStep 1 4 g 0) 25 = aget g 5 := by
  rw [aget_bodySymStep4_one0]
  norm_num

/-- Value written at index 26 by the weight-1 body-symmetry step 0. -/
theorem aget_bs4_0_26 (g : List ℚ) :
    aget (bodySymStep 1 4 g 0) 26 = aget g 6 := by
  rw [aget_bodySymStep4_one0]
  norm_num

/-- Value written at index 49 by the weight-1 body-symmetry step 0. -/
theorem aget_bs4_0_49 (g : List ℚ) :
    aget (bodySymStep 1 4 g 0) 49 = 1 - aget g 45 := by
  rw [aget_bodySymStep4_one0]
  norm_num

/-- The weight-1 body-symmetry step 0 leaves all other indices alone. -/
theorem aget_bs4_0_ne (g : List ℚ) (j : Nat) (h0 : ¬ 23 = j) (h1 : ¬ 24 = j) (h2 : ¬ 25 = j) (h3 : ¬ 26 = j) (h4 : ¬ 49 = j) :
    aget (bodySymStep 1 4 g 0) j = aget g j := by
  rw [aget_bodySymStep4_one0, if_neg h0, if_neg h1, if_neg h2, if_neg h3, if_neg h4]

/-- Value written at index 28 by the weight-1 body-symmetry step 1. -/
theorem aget_bs4_1_28 (g : List ℚ) :
    aget (bodySymStep 1 4 g 1) 28 = -(aget g 8) := by
  rw [aget_bodySymStep4_one1]
  norm_num

/-- Value written at index 29 by the weight-1 body-symmetry step 1. -/
theorem aget_bs4_1_29 (g : List ℚ) :
    aget (bodySymStep 1 4 g 1) 29 = aget g 9 := by
  rw [aget_bodySymStep4_one1]
  norm_num

/-- Value written at index 30 by the weight-1 body-symmetry step 1. -/
theorem aget_bs4_1_30 (g : List ℚ) :
    aget (bodySymStep 1 4 g 1) 30 = aget g 10 := by
  rw [aget_bodySymStep4_one1]
  norm_num

/-- Value written at index 31 by the weight-1 body-symmetry step 1. -/
theorem aget_bs4_1_31 (g : List ℚ) :
    aget (bodySymStep 1 4 g 1) 31 = aget g 11 := by
  rw [aget_bodySymStep4_one1]
  norm_num

/-- Value written at index 50 by the weight-1 body-symmetry step 1. -/
theorem aget_bs4_1_50 (g : List ℚ) :
    aget (bodySymStep 1 4 g 1) 50 = 1 - aget g 46 := by
  rw [aget_bodySymStep4_one1]
  norm_num

/-- The weight-1 body-symmetry step 1 leaves all other indices alone. -/
theorem aget_bs4_1_ne (g : List ℚ) (j : Nat) (h0 : ¬ 28 = j) (h1 : ¬ 29 = j) (h2 : ¬ 30 = j) (h3 : ¬ 31 = j) (h4 : ¬ 50 = j) :
    aget (bodySymStep 1 4 g 1) j = aget g j := by
  rw [aget_bodySymStep4_one1, if_neg h0, if_neg h1, if_neg h2, if_neg h3, if_neg h4]

/-- Value written at index 33 by the weight-1 body-symmetry step 2. -/
theorem aget_bs4_2_33 (g : List ℚ) :
    aget (bodySymStep 1 4 g 2) 33 = -(aget g 13) := by
  rw [aget_bodySymStep4_one2]
  norm_num

/-- Value written at index 34 by the weight-1 body-symmetry step 2. -/
theorem aget_bs4_2_34 (g : List ℚ) :
    aget (bodySymStep 1 4 g 2) 34 = aget g 14 := by
  rw [aget_bodySymStep4_one2]
  norm_num

/-- Value written at index 35 by the weight-1 body-symmetry step 2. -/
theorem aget_bs4_2_35 (g : List ℚ) :
    aget (bodySymStep 1 4 g 2) 35 = aget g 15 := by
  rw [aget_bodySymStep4_one2]
  norm_num

/-- Value written at index 36 by the weight-1 body-symmetry step 2. -/
theorem aget_bs4_2_36 (g : List ℚ) :
    aget (bodySymStep 1 4 g 2) 36 = aget g 16 := by
  rw [aget_bodySymStep4_one2]
  norm_num

/-- Value written at index 51 by the weight-1 body-symmetry step 2. -/
theorem aget_bs4_2_51 (g : List ℚ) :
    aget (bodySymStep 1 4 g 2) 51 = 1 - aget g 47 := by
  rw [aget_bodySymStep4_one2]
  norm_num

/-- The weight-1 body-symmetry step 2 leaves all other indices alone. -/
theorem aget_bs4_2_ne (g : List ℚ) (j : Nat) (h0 : ¬ 33 = j) (h1 : ¬ 34 = j) (h2 : ¬ 35 = j) (h3 : ¬ 36 = j) (h4 : ¬ 51 = j) :
    aget (bodySymStep 1 4 g 2) j = aget g j := by
  rw [aget_bodySymStep4_one2, if_neg h0, if_neg h1, if_neg h2, if_neg h3, if_neg h4]

/-- Value written at index 38 by the weight-1 body-symmetry step 3. -/
theorem aget_bs4_3_38 (g : List ℚ) :
    aget (bodySymStep 1 4 g 3) 38 = -(aget g 18) := by
  rw [aget_bodySymStep4_one3]
  norm_num

/-- Value written at index 39 by the weight-1 body-symmetry step 3. -/
theorem aget_bs4_3_39 (g : List ℚ) :
    aget (bodySymStep 1 4 g 3) 39 = aget g 19 := by
  rw [aget_bodySymStep4_one3]
  norm_num

/-- Value written at index 40 by the weight-1 body-symmetry step 3. -/
theorem aget_bs4_3_40 (g : List ℚ) :
    aget (bodySymStep 1 4 g 3) 40 = aget g 20 := by
  rw [aget_bodySymStep4_one3]
  norm_num

/-- Value written at index 41 by the weight-1 body-symmetry step 3. -/
theorem aget_bs4_3_41 (g : List ℚ) :
    aget (bodySymStep 1 4 g 3) 41 = aget g 21 := by
  rw [aget_bodySymStep4_one3]
  norm_num

/-- Value written at index 52 by the weight-1 body-symmetry step 3. -/
theorem aget_bs4_3_52 (g : List ℚ) :
    aget (bodySymStep 1 4 g 3) 52 = 1 - aget g 48 := by
  rw [aget_bodySymStep4_one3]
  norm_num

/-- The weight-1 body-symmetry step 3 leaves all other indices alone. -/
theorem aget_bs4_3_ne (g : List ℚ) (j : Nat) (h0 : ¬ 38 = j) (h1 : ¬ 39 = j) (h2 : ¬ 40 = j) (h3 : ¬ 41 = j) (h4 : ¬ 52 = j) :
    aget (bodySymStep 1 4 g 3) j = aget g j := by
  rw [aget_bodySymStep4_one3, if_neg h0, if_neg h1, if_neg h2, if_neg h3, if_neg h4]

/-- Length of one body-symmetry iteration on a full genotype. -/
theorem length_bodySymStep4 (sf : ℚ) (g : List ℚ) (i : Nat) (hi : i < 4)
    (hg : g.length = 65) : (bodySymStep sf 4 g i).length = 65 := by
  unfold bodySymStep
  dsimp only
  rw [length_aset, length_aset, length_aset, length_aset, length_aset]
  omega

/-- C7: on a full genotype whose body-symmetry gene is exactly 1, applying
`applyBodySymmetry` twice gives exactly the same genotype as applying it
once — the second application is a no-op on the already-mirrored half. -/
theorem applyBodySymmetry_idempotent_at_one (g : List ℚ)
    (hg : g.length = 65) (h54 : aget g 54 = 1) :
    applyBodySymmetryE 8 (applyBodySymmetryE 8 g) = applyBodySymmetryE 8 g := by
  have hone : ¬ (1 : ℚ) ≤ 0 := by norm_num
  have hsf : jsClamp (aget g 54) 0 1 = 1 := by
    rw [h54]
    norm_num [jsClamp]
  have hdef : applyBodySymmetryE 8 g
      = bodySymStep 1 4 (bodySymStep 1 4 (bodySymStep 1 4
          (bodySymStep 1 4 g 0) 1) 2) 3 := by
    unfold applyBodySymmetryE
    rw [hsf, if_neg hone]
    rw [show (8:Nat)/2 = 4 from rfl, show List.range 4 = [0,1,2,3] from rfl,
      List.foldl_cons, List.foldl_cons, List.foldl_cons, List.foldl_cons,
      List.foldl_nil]
  have hlen : (applyBodySymmetryE 8 g).length = 65 := by
    rw [hdef]
    exact length_bodySymStep4 _ _ _ (by omega)
      (length_bodySymStep4 _ _ _ (by omega)
        (length_bodySymStep4 _ _ _ (by omega)
          (length_bodySymStep4 _ _ _ (by omega) hg)))
  have h54h : aget (applyBodySymmetryE 8 g) 54 = 1 := by
    rw [hdef]
    simp only [aget_bs4_0_23,
      aget_bs4_0_24,
      aget_bs4_0_25,
      aget_bs4_0_26,
      aget_bs4_0_49,
      aget_bs4_0_ne,
      aget_bs4_1_28,
      aget_bs4_1_29,
      aget_bs4_1_30,
      aget_bs4_1_31,
      aget_bs4_1_50,
      aget_bs4_1_ne,
      aget_bs4_2_33,
      aget_bs4_2_34,
      aget_bs4_2_35,
      aget_bs4_2_36,
      aget_bs4_2_51,
      aget_bs4_2_ne,
      aget_bs4_3_38,
      aget_bs4_3_39,
      aget_bs4_3_40,
      aget_bs4_3_41,
      aget_bs4_3_52,
      aget_bs4_3_ne,
      Nat.reduceEqDiff, not_false_eq_true]
    exact h54
  have hsf2 : jsClamp (aget (applyBodySymmetryE 8 g) 54) 0 1 = 1 := by
    rw [h54h]
    norm_num [jsClamp]
  have hdef2 : applyBodySymmetryE 8 (applyBodySymmetryE 8 g)
      = bodySymStep 1 4 (bodySymStep 1 4 (bodySymStep 1 4
          (bodySymStep 1 4 (applyBodySymmetryE 8 g) 0) 1) 2) 3 := by
    conv_lhs => rw [applyBodySymmetryE]
    rw [hsf2, if_neg hone]
    rw [show (8:Nat)/2 = 4 from rfl, show List.range 4 = [0,1,2,3] from rfl,
      List.foldl_cons, List.foldl_cons, List.foldl_cons, List.foldl_cons,
      List.foldl_nil]
  have hlen2 : (applyBodySymmetryE 8 (applyBodySymmetryE 8 g)).length
      = (applyBodySymmetryE 8 g).length := by
    rw [hdef2, hlen]
    exact length_bodySymStep4 _ _ _ (by omega)
      (length_bodySymStep4 _ _ _ (by omega)
        (length_bodySymStep4 _ _ _ (by omega)
          (length_bodySymStep4 _ _ _ (by omega) hlen)))
  apply aget_ext _ _ hlen2
  intro j hj
  have hj65 : j < 65 := by
    rw [hlen2, hlen] at hj
    exact hj
  rw [hdef2, hdef]
  interval_cases j <;>
    simp only [aget_bs4_0_23,
      aget_bs4_0_24,
      aget_bs4_0_25,
      aget_bs4_0_26,
      aget_bs4_0_49,
      aget_bs4_0_ne,
      aget_bs4_1_28,
      aget_bs4_1_29,
      aget_bs4_1_30,
      aget_bs4_1_31,
      aget_bs4_1_50,
      aget_bs4_1_ne,
      aget_bs4_2_33,
      aget_bs4_2_34,
      aget_bs4_2_35,
      aget_bs4_2_36,
      aget_bs4_2_51,
      aget_bs4_2_ne,
      aget_bs4_3_38,
      aget_bs4_3_39,
      aget_bs4_3_40,
      aget_bs4_3_41,
      aget_bs4_3_52,
      aget_bs4_3_ne,
      Nat.reduceEqDiff, not_false_eq_true]

/-- Concrete genotype for the C7 witness: all zeros except body-symmetry
gene 1. -/
def c7geno : List ℚ := aset (List.replicate 65 0) 54 1

/-- Witness for C7 at a concrete full-length genotype with body-symmetry
factor 1. -/
theorem applyBodySymmetry_idempotent_witness :
    c7geno.length = 65 ∧ aget c7geno 54 = 1 ∧
    applyBodySymmetryE 8 (applyBodySymmetryE 8 c7geno)
      = applyBodySymmetryE 8 c7geno :=
  ⟨by decide, by decide,
    applyBodySymmetry_idempotent_at_one c7geno (by decide) (by decide)⟩

end BioCrabs
